import Mathlib

/-!
# The node annotater of the GCP controller manager

A shallow embedding of `cmd/gcp-controller-manager/app/node_annotater.go`.

The annotater keeps one annotation on every cluster node,
`container.googleapis.com/instance_id`, equal to the numeric identifier that
the GCE inventory reports for the instance named by the node's provider URI.

Modelling conventions:

* Go strings are Lean `String`s; the byte-wise library routines (`net/url`,
  `strings.Split`, `strconv.FormatUint`) work on the character list of the
  string.  Every character the routines inspect is ASCII, so scanning characters
  and scanning UTF-8 bytes cut a string at the same places.
* A Go `map[string]string` is an association list read through its first match;
  `nil` and the empty map are told apart by an `Option`.
* The collaborators of the annotater (node lister, cluster client, inventory
  lookup) are fields of `nodeAnnotater`; every call made on the cluster client,
  the inventory and the work queue is recorded, in order, in a list of `Call`s.
* The lister hands out the pointer stored in the informer cache, so an assignment
  through that pointer is visible to the next read of the same key: `sync`
  returns the annotater with the cache entry rewritten.
* The event handlers receive an `Object`, the model of `interface{}`; a failed
  type assertion is the result `none`.
* The work queue itself is the client library `workqueue`; where its behaviour
  matters it is a state with one atomic step for each operation.
-/

namespace NodeAnnotater

deriving instance DecidableEq for Except

/-! ## Data model -/

/-- The annotation key, `InstanceIDAnnotationKey` (line 42). -/
def InstanceIDAnnotationKey : String := "container.googleapis.com/instance_id"

/-- A Go `map[string]string` that is not nil. -/
abbrev GoMap := List (String × String)

/-- The Go expression `m[k]`: the stored value, or the zero value `""`. -/
def GoMap.index (m : GoMap) (k : String) : String :=
  (m.lookup k).getD ""

/-- The Go statement `m[k] = v`: overwrite the entry of `k`, or add one. -/
def GoMap.assign : GoMap → String → String → GoMap
  | [], k, v => [(k, v)]
  | (k', v') :: m, k, v =>
    if k' = k then (k, v) :: m else (k', v') :: GoMap.assign m k v

/-- The fields of `core.Node` that the annotater reads or writes:
`ObjectMeta.Name`, `ObjectMeta.Annotations` (`none` is the nil map),
`Spec.ProviderID` and `Status.NodeInfo.BootID`, and `ObjectMeta.Namespace`,
which the key function reads (a node is cluster-scoped, its namespace is
empty unless said otherwise). -/
structure Node where
  Name : String
  Annotations : Option GoMap
  ProviderID : String
  BootID : String
  Namespace : String := ""
  deriving DecidableEq, Repr

/-- The Go expression `len(node.ObjectMeta.Annotations)`; the nil map has length 0. -/
def Node.lenAnnotations (node : Node) : Nat :=
  match node.Annotations with
  | none => 0
  | some m => m.length

/-- The Go expression `node.ObjectMeta.Annotations[k]`; reading a nil map gives `""`. -/
def Node.annotation (node : Node) (k : String) : String :=
  match node.Annotations with
  | none => ""
  | some m => m.index k

/-- The entry of `k` in the node's annotations, if there is one. -/
def Node.annotation? (node : Node) (k : String) : Option String :=
  match node.Annotations with
  | none => none
  | some m => m.lookup k

/-- The field of `compute.Instance` that the annotater reads: `Id`, a `uint64`. -/
structure Instance where
  Id : Nat
  deriving DecidableEq, Repr

/-- A call on a collaborator: the inventory lookup `getInstance`, the cluster
client's `Core().Nodes().Update`, and the methods of the rate limiting work queue. -/
inductive Call where
  | getInstance (project zone vm : String)
  | nodesUpdate (node : Node)
  | queueGet
  | queueAdd (key : String)
  | queueAddRateLimited (key : String)
  | queueForget (key : String)
  | queueDone (key : String)
  deriving DecidableEq, Repr

/-- Is the call a write through the cluster client? -/
def Call.isUpdate : Call → Bool
  | .nodesUpdate _ => true
  | _ => false

/-- Is the call an inventory lookup? -/
def Call.isLookup : Call → Bool
  | .getInstance _ _ _ => true
  | _ => false

/-- Does the call put a key back on the work queue (at once or after a delay)? -/
def Call.isEnqueue : Call → Bool
  | .queueAdd _ => true
  | .queueAddRateLimited _ => true
  | _ => false

/-! ## Library routines: `net/url`

`url.Parse` of the Go standard library (release 1.11, the toolchain of the
repository's time), restricted to the components this program reads, `Scheme`,
`Host` and `Path`.  The other components (`User`, `RawPath`, `RawQuery`,
`Fragment`, the rootless remainder of a URL with a scheme) are parsed and
validated, because a failure there fails the whole parse, but are not stored.
A percent-escape `%XY` is decoded to the character with code `XY`. -/

/-- The components of `url.URL` that `getExternalID` reads. -/
structure URL where
  Scheme : String
  Host : String
  Path : String
  deriving DecidableEq, Repr

/-- The errors of `url.Parse`. -/
inductive UrlError where
  /-- An `EscapeError`: invalid URL escape. -/
  | escape (s : String)
  /-- An `InvalidHostError`: invalid character in host name. -/
  | invalidHost (s : String)
  /-- The text "empty url". -/
  | emptyUrl
  /-- The text "missing protocol scheme". -/
  | missingScheme
  /-- The text "invalid URI for request". -/
  | invalidRequestURI
  /-- The text "first path segment in URL cannot contain colon". -/
  | colonInFirstSegment
  /-- The text "missing ']' in host". -/
  | missingBracket
  /-- The text "invalid port ... after host". -/
  | invalidPort (s : String)
  /-- The text "net/url: invalid userinfo". -/
  | invalidUserinfo
  deriving DecidableEq, Repr

/-- The modes of `unescape` and `shouldEscape`. -/
inductive encoding where
  | encodePath
  | encodePathSegment
  | encodeHost
  | encodeZone
  | encodeUserPassword
  | encodeQueryComponent
  | encodeFragment
  deriving DecidableEq, Repr

/-- Go's `'A' <= c && c <= 'Z' || 'a' <= c && c <= 'z'`. -/
def isLetter (c : Char) : Bool :=
  ('A'.toNat ≤ c.toNat && c.toNat ≤ 'Z'.toNat) || ('a'.toNat ≤ c.toNat && c.toNat ≤ 'z'.toNat)

/-- Go's `'0' <= c && c <= '9'`. -/
def isDigit (c : Char) : Bool :=
  '0'.toNat ≤ c.toNat && c.toNat ≤ '9'.toNat

/-- The routine `ishex` of `net/url`. -/
def ishex (c : Char) : Bool :=
  isDigit c || ('a'.toNat ≤ c.toNat && c.toNat ≤ 'f'.toNat)
    || ('A'.toNat ≤ c.toNat && c.toNat ≤ 'F'.toNat)

/-- The routine `unhex` of `net/url`. -/
def unhex (c : Char) : Nat :=
  if isDigit c then c.toNat - '0'.toNat
  else if 'a'.toNat ≤ c.toNat && c.toNat ≤ 'f'.toNat then c.toNat - 'a'.toNat + 10
  else if 'A'.toNat ≤ c.toNat && c.toNat ≤ 'F'.toNat then c.toNat - 'A'.toNat + 10
  else 0

/-- The routine `shouldEscape` of `net/url`: must `c` be escaped in this mode? -/
def shouldEscape (c : Char) (mode : encoding) : Bool :=
  if isLetter c || isDigit c then false
  else if (mode = .encodeHost || mode = .encodeZone) &&
      c ∈ ['!', '$', '&', '\'', '(', ')', '*', '+', ',', ';', '=', ':', '[', ']', '<', '>', '"'] then
    false
  else if c ∈ ['-', '_', '.', '~'] then false
  else if c ∈ ['$', '&', '+', ',', '/', ':', ';', '=', '?', '@'] then
    match mode with
    | .encodePath => c = '?'
    | .encodePathSegment => c = '/' || c = ';' || c = ',' || c = '?'
    | .encodeUserPassword => c = '@' || c = '/' || c = '?' || c = ':'
    | .encodeQueryComponent => true
    | .encodeFragment => false
    | _ => true
  else true

/-- The first loop of `unescape`: check that every `%` starts a well-formed
escape and, for a host, that no character is one a host cannot hold.  The
result is the offending piece, or `none` when the string passes. -/
def unescapeCheck (mode : encoding) : List Char → Option UrlError
  | [] => none
  | c :: s =>
    if c = '%' then
      match s with
      | a :: b :: t =>
        if !ishex a || !ishex b then some (.escape (String.mk ['%', a, b]))
        else if mode = .encodeHost && unhex a < 8 && [a, b] ≠ ['2', '5'] then
          some (.escape (String.mk ['%', a, b]))
        else if mode = .encodeZone && [a, b] ≠ ['2', '5'] && unhex a * 16 + unhex b ≠ ' '.toNat
            && shouldEscape (Char.ofNat (unhex a * 16 + unhex b)) .encodeHost then
          some (.escape (String.mk ['%', a, b]))
        else unescapeCheck mode t
      | _ => some (.escape (String.mk ('%' :: s)))
    else if c ≠ '+' && (mode = .encodeHost || mode = .encodeZone) && c.toNat < 128
        && shouldEscape c .encodeHost then
      some (.invalidHost (String.mk [c]))
    else unescapeCheck mode s

/-- The second loop of `unescape`: replace the escapes, and `+` by a blank in a
query component.  Go writes the byte `XY` for the escape `%XY`; the model
writes the character with code `XY`, which is the same string for `XY` below
`0x80` only: an escaped byte from `0x80` on is one byte of a longer UTF-8
sequence in Go and a character of its own here. -/
def unescapeDecode (mode : encoding) : List Char → List Char
  | [] => []
  | c :: s =>
    if c = '%' then
      match s with
      | a :: b :: t => Char.ofNat (unhex a * 16 + unhex b) :: unescapeDecode mode t
      | _ => c :: s
    else (if c = '+' && mode = .encodeQueryComponent then ' ' else c) :: unescapeDecode mode s

/-- The routine `unescape` of `net/url`. -/
def unescape (s : List Char) (mode : encoding) : Except UrlError (List Char) :=
  match unescapeCheck mode s with
  | some e => .error e
  | none => .ok (unescapeDecode mode s)

/-- The routine `split` of `net/url` for a one-byte separator: cut `s` at the
first `c`, dropping the `c` when `cutc`; without a `c` the result is `(s, "")`. -/
def split (c : Char) (cutc : Bool) : List Char → List Char × List Char
  | [] => ([], [])
  | x :: s =>
    if x = c then ([], if cutc then s else x :: s)
    else ((x :: (split c cutc s).1), (split c cutc s).2)

/-- Go's `strings.Index(s, substr)`, with `none` for `-1`. -/
def stringsIndex (substr : List Char) : List Char → Option Nat
  | [] => if substr = [] then some 0 else none
  | x :: s =>
    if substr.isPrefixOf (x :: s) then some 0
    else (stringsIndex substr s).map (· + 1)

/-- Go's `strings.LastIndex(s, c)` for a one-byte `c`, with `none` for `-1`. -/
def stringsLastIndex (c : Char) : List Char → Option Nat
  | [] => none
  | x :: s =>
    match stringsLastIndex c s with
    | some i => some (i + 1)
    | none => if x = c then some 0 else none

/-- The scan of `getscheme`: `seen` holds the bytes before the current one. -/
def getschemeFrom (rawurl : List Char) : List Char → List Char →
    Except UrlError (List Char × List Char)
  | _, [] => .ok ([], rawurl)
  | seen, c :: s =>
    if isLetter c then getschemeFrom rawurl (seen ++ [c]) s
    else if isDigit c || c = '+' || c = '-' || c = '.' then
      if seen = [] then .ok ([], rawurl) else getschemeFrom rawurl (seen ++ [c]) s
    else if c = ':' then
      if seen = [] then .error .missingScheme else .ok (seen, s)
    else .ok ([], rawurl)

/-- The routine `getscheme` of `net/url`: the scheme and what follows its colon,
or an empty scheme and the whole input. -/
def getscheme (rawurl : List Char) : Except UrlError (List Char × List Char) :=
  getschemeFrom rawurl [] rawurl

/-- The routine `validOptionalPort` of `net/url`: empty, or a colon and digits. -/
def validOptionalPort : List Char → Bool
  | [] => true
  | c :: s => c = ':' && s.all isDigit

/-- The routine `validUserinfo` of `net/url`. -/
def validUserinfo (s : List Char) : Bool :=
  s.all fun r => isLetter r || isDigit r ||
    r ∈ ['-', '.', '_', ':', '~', '!', '$', '&', '\'', '(', ')', '*', '+', ',', ';', '=', '%', '@']

/-- The routine `parseHost` of `net/url`. -/
def parseHost (host : List Char) : Except UrlError (List Char) :=
  let plain := unescape host .encodeHost
  if host.head? = some '[' then
    match stringsLastIndex ']' host with
    | none => .error .missingBracket
    | some i =>
      let colonPort := host.drop (i + 1)
      if !validOptionalPort colonPort then .error (.invalidPort (String.mk colonPort))
      else
        match stringsIndex ['%', '2', '5'] (host.take i) with
        | some zone =>
          match unescape (host.take zone) .encodeHost with
          | .error e => .error e
          | .ok host1 =>
            match unescape ((host.take i).drop zone) .encodeZone with
            | .error e => .error e
            | .ok host2 =>
              match unescape (host.drop i) .encodeHost with
              | .error e => .error e
              | .ok host3 => .ok (host1 ++ host2 ++ host3)
        | none => plain
  else plain

/-- The routine `parseAuthority` of `net/url`, without the `User` it builds:
the host, after the user information before the last `@` has been validated. -/
def parseAuthority (authority : List Char) : Except UrlError (List Char) :=
  match stringsLastIndex '@' authority with
  | none => parseHost authority
  | some i =>
    match parseHost (authority.drop (i + 1)) with
    | .error e => .error e
    | .ok host =>
      let userinfo := authority.take i
      if !validUserinfo userinfo then .error .invalidUserinfo
      else if !userinfo.contains ':' then
        match unescape userinfo .encodeUserPassword with
        | .error e => .error e
        | .ok _ => .ok host
      else
        match unescape (split ':' true userinfo).1 .encodeUserPassword with
        | .error e => .error e
        | .ok _ =>
          match unescape (split ':' true userinfo).2 .encodeUserPassword with
          | .error e => .error e
          | .ok _ => .ok host


/-- The routine `parse` of `net/url`. -/
def parse (rawurl : List Char) (viaRequest : Bool) : Except UrlError URL :=
  if rawurl = [] && viaRequest then .error .emptyUrl
  else if rawurl = ['*'] then .ok { Scheme := "", Host := "", Path := "*" }
  else
    match getscheme rawurl with
    | .error e => .error e
    | .ok (scheme, afterScheme) =>
      let scheme := scheme.map Char.toLower
      let rest :=
        if afterScheme.getLast? = some '?' && afterScheme.count '?' = 1 then afterScheme.dropLast
        else (split '?' true afterScheme).1
      if rest.head? ≠ some '/' && scheme ≠ [] then
        .ok { Scheme := String.mk scheme, Host := "", Path := "" }
      else if rest.head? ≠ some '/' && viaRequest then .error .invalidRequestURI
      else if rest.head? ≠ some '/' && rest.contains ':' &&
          (!rest.contains '/' || (split ':' true rest).1.length < (split '/' true rest).1.length) then
        .error .colonInFirstSegment
      else if (scheme ≠ [] || (!viaRequest && !(['/', '/', '/'].isPrefixOf rest)))
          && ['/', '/'].isPrefixOf rest then
        match parseAuthority (split '/' false (rest.drop 2)).1 with
        | .error e => .error e
        | .ok host =>
          match unescape (split '/' false (rest.drop 2)).2 .encodePath with
          | .error e => .error e
          | .ok path =>
            .ok { Scheme := String.mk scheme, Host := String.mk host, Path := String.mk path }
      else
        match unescape rest .encodePath with
        | .error e => .error e
        | .ok path => .ok { Scheme := String.mk scheme, Host := "", Path := String.mk path }

/-- Go's `url.Parse`: cut off the fragment, parse the rest, check the fragment. -/
def urlParse (rawurl : String) : Except UrlError URL :=
  match parse (split '#' true rawurl.data).1 false with
  | .error e => .error e
  | .ok url =>
    if (split '#' true rawurl.data).2 = [] then .ok url
    else
      match unescape (split '#' true rawurl.data).2 .encodeFragment with
      | .error e => .error e
      | .ok _ => .ok url

/-! ## Library routines: `strings.Split` and `strconv.FormatUint` -/

/-- The pieces of `s` between the occurrences of the byte `sep`. -/
def splitOnByte (sep : Char) : List Char → List (List Char)
  | [] => [[]]
  | c :: s =>
    if c = sep then [] :: splitOnByte sep s
    else
      match splitOnByte sep s with
      | [] => [[c]]
      | p :: ps => (c :: p) :: ps

/-- Go's `strings.Split(s, sep)` for a one-byte separator: all the substrings
of `s` between separators, one more than there are separators. -/
def stringsSplit (s : String) (sep : Char) : List String :=
  (splitOnByte sep s.data).map String.mk

/-- The digit loop of `strconv.FormatUint` in base 10: the low digit of `u` is
written in front of `acc` and `u` is divided by ten, until `u` is below ten.
The buffer of the Go routine holds 64 bytes plus a sign; a `uint64` needs at
most twenty decimal digits, which is the number of rounds `fuel` allows. -/
def formatBits : Nat → Nat → List Char → List Char
  | 0, _, acc => acc
  | fuel + 1, u, acc =>
    if u ≥ 10 then formatBits fuel (u / 10) (Char.ofNat ('0'.toNat + u % 10) :: acc)
    else Char.ofNat ('0'.toNat + u) :: acc

/-- Modelled from the spec: `strconv.FormatUint(i, 10)` of the Go standard
library, which is not part of the repository's sources: the decimal string form
of the 64-bit unsigned integer `i` (the argument is taken modulo `2^64`, the
range of a `uint64`). -/
def FormatUint (i : Nat) : String :=
  String.mk (formatBits 20 (i % 2 ^ 64) [])

/-- The value of a string of decimal digits read as a base-10 number, most
significant digit first; `none` when the string is empty or holds another
character. -/
def parseDecimal (s : String) : Option Nat :=
  if s.data = [] then none
  else s.data.foldl
    (fun acc c => if isDigit c then acc.map (fun n => n * 10 + (c.toNat - '0'.toNat)) else none)
    (some 0)

/-- An unreserved character of RFC 3986: a letter, a digit, or one of `-._~`. -/
def unreserved (c : Char) : Bool :=
  isLetter c || isDigit c || c = '-' || c = '_' || c = '.' || c = '~'

/-! ## The annotater -/

/-- The errors `getExternalID` returns, one constructor for each `fmt.Errorf`. -/
inductive ResolveError where
  /-- Line 162: "failed to parse %q: %v" with the URI and the error of `url.Parse`. -/
  | failedToParse (nodeUrl : String) (err : UrlError)
  /-- Line 165: "instance %q doesn't run on gce" with the URI. -/
  | notOnGCE (nodeUrl : String)
  /-- Line 170: "failed to parse %q: expected a three part path". -/
  | threePartPath
  /-- Line 173: "failed to parse %q: part one of path to have length 0". -/
  | partOneLength
  /-- Line 180: "unable to query gcp apis: %v" with the error of the lookup. -/
  | unableToQuery (err : String)
  deriving DecidableEq, Repr

/-- The text of a `ResolveError`, `err.Error()`, as the `fmt.Errorf` of its line
builds it.  The two renderings done by the library are arguments: `quote` is
the verb `%q` applied to a string, `parseText` gives the text of the error
`url.Parse` returned for a URI.  The verb `%v` applied to the lookup error is
the text of that error; lines 170 and 173 give `%q` no argument, which prints
as `%!q(MISSING)`. -/
def ResolveError.Error (quote : String → String) (parseText : String → UrlError → String) :
    ResolveError → String
  | .failedToParse nodeUrl err =>
    "failed to parse " ++ quote nodeUrl ++ ": " ++ parseText nodeUrl err
  | .notOnGCE nodeUrl => "instance " ++ quote nodeUrl ++ " doesn't run on gce"
  | .threePartPath => "failed to parse %!q(MISSING): expected a three part path"
  | .partOneLength => "failed to parse %!q(MISSING): part one of path to have length 0"
  | .unableToQuery err => "unable to query gcp apis: " ++ err

/-- The collaborators held by `nodeAnnotater` (lines 44-50).  `c` answers
`c.Core().Nodes().Update(node)`, `ns` is the content of the lister's cache (a
key that is absent makes `ns.Get` fail), `getInstance` is the inventory lookup.
The work queue has no answer the annotater looks at besides that of `Get`,
which is an argument of `processNextWorkItem`. -/
structure nodeAnnotater where
  c : Node → Except String Node
  ns : String → Option Node
  getInstance : String → String → String → Except String Instance

/-- Function `getExternalID` (lines 159-184): the result and the calls made. -/
def getExternalID (na : nodeAnnotater) (nodeUrl : String) :
    Except ResolveError String × List Call :=
  match urlParse nodeUrl with
  | .error err => (.error (.failedToParse nodeUrl err), [])
  | .ok u =>
    if u.Scheme ≠ "gce" then (.error (.notOnGCE nodeUrl), [])
    else
      let project := u.Host
      match stringsSplit u.Path '/' with
      | [part0, zone, vm] =>
        if part0.length ≠ 0 then (.error .partOneLength, [])
        else
          match na.getInstance project zone vm with
          | .error err => (.error (.unableToQuery err), [.getInstance project zone vm])
          | .ok inst => (.ok (FormatUint inst.Id), [.getInstance project zone vm])
      | _ => (.error .threePartPath, [])

/-- The node object after lines 146-150: the annotation map exists and holds `eid`
under the identity key. -/
def annotated (node : Node) (eid : String) : Node :=
  { node with
    Annotations := some (GoMap.assign (node.Annotations.getD []) InstanceIDAnnotationKey eid) }

/-- Function `sync` (lines 128-157): the annotater afterwards (the cache entry
of `key` is the node object the function assigned through) and the calls made. -/
def sync (na : nodeAnnotater) (key : String) : nodeAnnotater × List Call :=
  match na.ns key with
  | none => (na, [.queueAdd key])
  | some node =>
    match getExternalID na node.ProviderID with
    | (.error _, calls) => (na, calls ++ [.queueAdd key])
    | (.ok eid, calls) =>
      if node.lenAnnotations ≠ 0 && eid = node.annotation InstanceIDAnnotationKey then
        (na, calls)
      else
        let node1 : Node := annotated node eid
        let na1 : nodeAnnotater := { na with ns := Function.update na.ns key (some node1) }
        match na.c node1 with
        | .error _ => (na1, calls ++ [.nodesUpdate node1, .queueAdd key])
        | .ok _ => (na1, calls ++ [.nodesUpdate node1])

/-- Function `processNextWorkItem` (lines 110-121), given the answer `(key, quit)`
of `queue.Get()`: the returned flag, the annotater afterwards and the calls made.
The deferred `queue.Done(key)` runs last. -/
def processNextWorkItem (na : nodeAnnotater) (key : String) (quit : Bool) :
    Bool × nodeAnnotater × List Call :=
  if quit then (false, na, [.queueGet])
  else
    (true, (sync na key).1, [.queueGet] ++ (sync na key).2 ++ [.queueForget key, .queueDone key])

/-- A number of `sync` passes for one key, one after the other. -/
def syncRepeat (na : nodeAnnotater) (key : String) : Nat → nodeAnnotater × List Call
  | 0 => (na, [])
  | n + 1 =>
    ((syncRepeat (sync na key).1 key n).1, (sync na key).2 ++ (syncRepeat (sync na key).1 key n).2)


/-! ## The event handlers -/

/-- A value handed to an event handler or to the key function as an
`interface{}`: a node, the tombstone `cache.DeletedFinalStateUnknown` that
stands for a deleted object, an explicit key `cache.ExplicitKey`, or a value of
another type, which has no object metadata. -/
inductive Object where
  | node (n : Node)
  | deletedFinalStateUnknown (key : String)
  | explicitKey (key : String)
  | other
  deriving DecidableEq, Repr

/-- The key function `controller.KeyFunc`, which is
`cache.DeletionHandlingMetaNamespaceKeyFunc`: the key of a tombstone, else
`MetaNamespaceKeyFunc`, that is `namespace/name`, or `name` alone when the
namespace is empty; a value without object metadata gives an error. -/
def KeyFunc : Object → Except String String
  | .deletedFinalStateUnknown key => .ok key
  | .explicitKey key => .ok key
  | .node n => if n.Namespace.length > 0 then .ok (n.Namespace ++ "/" ++ n.Name) else .ok n.Name
  | .other => .error "object has no meta"

/-- Function `enqueue` (lines 91-98): the calls made.  An object without a key
is reported through `utilruntime.HandleError` and nothing is enqueued. -/
def enqueue (obj : Object) : List Call :=
  match KeyFunc obj with
  | .error _ => []
  | .ok key => [.queueAdd key]

/-- Function `add` (lines 79-81): the calls made. -/
def add (obj : Object) : List Call :=
  enqueue obj

/-- Function `update` (lines 83-89): the calls made, or `none` when one of the
two type assertions to `*core.Node` fails (a panic). -/
def update (obj oldObj : Object) : Option (List Call) :=
  match obj, oldObj with
  | .node node, .node oldNode =>
    if node.BootID ≠ oldNode.BootID then some (enqueue obj) else some []
  | _, _ => none

/-- The registration of lines 72-75: the informer calls `AddFunc` with the new
object. -/
def onAdd (obj : Object) : List Call :=
  add obj

/-- The registration of lines 72-75: the informer calls `UpdateFunc` with the
old object first and the new object second, so `update` receives the old object
as `obj` and the new one as `oldObj`. -/
def onUpdate (oldObj newObj : Object) : Option (List Call) :=
  update oldObj newObj

/-! ## The work queue

The queue is the client library `workqueue`, whose code is not among the
sources; the annotater only calls it.  The definitions below follow the
description of the queue in the specification (sections 3, 4.1 and 9): a set of
pending keys with an ordering, and for every key an in-flight flag and a flag
"dirty while processing".  Every operation is one atomic step (the queue is
guarded by one lock), so a run of several workers and event handlers is a
sequence of such steps. -/

/-- Modelled from the spec: the state of the work queue, which is not in the
sources: the pending keys in their order, the keys in flight (handed to a
worker by `next` and not yet released by `done`), and the keys enqueued again
while in flight. -/
structure WorkQueue where
  pending : List String
  processing : List String
  dirty : List String
  deriving DecidableEq, Repr

/-- Modelled from the spec: the queue with no key, which is not in the sources. -/
def WorkQueue.empty : WorkQueue :=
  { pending := [], processing := [], dirty := [] }

/-- Modelled from the spec: the operation `enqueue(key)` of the queue, which is
not in the sources.  It is redundant while the key is already pending; while
the key is in flight the enqueue is recorded, once, in the dirty flag. -/
def WorkQueue.enqueue (q : WorkQueue) (key : String) : WorkQueue :=
  if key ∈ q.processing then
    if key ∈ q.dirty then q else { q with dirty := key :: q.dirty }
  else if key ∈ q.pending then q
  else { q with pending := q.pending ++ [key] }

/-- Modelled from the spec: the operation `next()` of the queue, which is not
in the sources: the first pending key, now in flight, or `none` while there is
no pending key (the caller waits). -/
def WorkQueue.next (q : WorkQueue) : Option (String × WorkQueue) :=
  match q.pending with
  | [] => none
  | key :: rest => some (key, { q with pending := rest, processing := key :: q.processing })

/-- Modelled from the spec: the operation `done(key)` of the queue, which is
not in the sources: the key is no longer in flight, and an enqueue recorded
while it was in flight is replayed. -/
def WorkQueue.done (q : WorkQueue) (key : String) : WorkQueue :=
  if key ∈ q.dirty then
    { pending := q.pending ++ [key]
      processing := q.processing.filter (· ≠ key)
      dirty := q.dirty.filter (· ≠ key) }
  else { q with processing := q.processing.filter (· ≠ key) }

/-- One atomic step on the queue: an enqueue by an event handler or by `sync`,
a `next` by a worker, a `done` by a worker. -/
inductive QueueEvent where
  | enqueue (key : String)
  | next
  | done (key : String)
  deriving DecidableEq, Repr

/-- The queue after one step; a `next` on a queue without pending key waits. -/
def WorkQueue.step (q : WorkQueue) : QueueEvent → WorkQueue
  | .enqueue key => q.enqueue key
  | .next =>
    match q.next with
    | none => q
    | some (_, q') => q'
  | .done key => q.done key

/-- The queue after a sequence of steps. -/
def WorkQueue.run (q : WorkQueue) (events : List QueueEvent) : WorkQueue :=
  events.foldl WorkQueue.step q

/-- The queue after `count` enqueues of one key. -/
def WorkQueue.enqueueTimes (q : WorkQueue) (key : String) : Nat → WorkQueue
  | 0 => q
  | count + 1 => (q.enqueueTimes key count).enqueue key

/-- A worker that takes keys until none is pending, `processNextWorkItem` after
`processNextWorkItem` with no enqueue in between: the keys it was handed, one
`sync` pass each, and the queue it leaves. -/
def WorkQueue.drain : Nat → WorkQueue → List String × WorkQueue
  | 0, q => ([], q)
  | fuel + 1, q =>
    match q.next with
    | none => ([], q)
    | some (key, q') => (key :: (drain fuel (q'.done key)).1, (drain fuel (q'.done key)).2)

/-- The queue invariant: no pending key is listed twice, no pending key is in
flight, and only keys in flight are dirty. -/
def WorkQueue.Inv (q : WorkQueue) : Prop :=
  q.pending.Nodup ∧ (∀ k ∈ q.pending, k ∉ q.processing) ∧ (∀ k ∈ q.dirty, k ∈ q.processing)

instance WorkQueue.decidableInv (q : WorkQueue) : Decidable q.Inv := by
  unfold WorkQueue.Inv
  infer_instance

/-! ## Concrete collaborators used to evaluate the model -/

/-- A node with the given annotations whose provider URI is `gce://p/z/v`. -/
def sampleNode (annotations : Option GoMap) : Node :=
  { Name := "n1", Annotations := annotations, ProviderID := "gce://p/z/v", BootID := "b" }

/-- An annotater whose cache holds `node` under the key `n1` and nothing else,
whose inventory answers every lookup with `inventory` and whose cluster client
answers every update with `written`. -/
def sampleAnnotater (node : Node) (inventory : Except String Instance)
    (written : Except String Unit) : nodeAnnotater :=
  { c := fun n => written.map fun _ => n
    ns := fun k => if k = "n1" then some node else none
    getInstance := fun _ _ _ => inventory }

/-! # Theorems -/

/-! ## The cases of `getExternalID` and `sync` -/

theorem getExternalID_calls_lookup (na : nodeAnnotater) (nodeUrl : String) :
    ∀ c ∈ (getExternalID na nodeUrl).2, c.isLookup = true := by
  unfold getExternalID
  split
  · simp
  · split
    · simp
    · split
      · split
        · simp
        · dsimp only
          split <;> simp [Call.isLookup]
      · simp

theorem getExternalID_calls_length (na : nodeAnnotater) (nodeUrl : String) :
    (getExternalID na nodeUrl).2.length ≤ 1 := by
  unfold getExternalID
  split
  · simp
  · split
    · simp
    · split
      · split
        · simp
        · dsimp only
          split <;> simp
      · simp

theorem isLookup_not_update {c : Call} (h : c.isLookup = true) :
    c.isUpdate = false ∧ c.isEnqueue = false := by
  cases c <;> simp_all [Call.isLookup, Call.isUpdate, Call.isEnqueue]

theorem getExternalID_ok_format (na : nodeAnnotater) (nodeUrl eid : String)
    (h : (getExternalID na nodeUrl).1 = .ok eid) : ∃ n, eid = FormatUint n := by
  unfold getExternalID at h
  split at h
  · simp at h
  · split at h
    · simp at h
    · split at h
      · split at h
        · simp at h
        · dsimp only at h
          split at h
          · simp at h
          · rename_i inst _
            exact ⟨inst.Id, by simpa using h.symm⟩
      · simp at h

theorem sync_notFound (na : nodeAnnotater) (key : String) (h : na.ns key = none) :
    sync na key = (na, [.queueAdd key]) := by
  simp [sync, h]

theorem sync_resolveError (na : nodeAnnotater) (key : String) (node : Node) (e : ResolveError)
    (h : na.ns key = some node) (he : (getExternalID na node.ProviderID).1 = .error e) :
    sync na key = (na, (getExternalID na node.ProviderID).2 ++ [.queueAdd key]) := by
  rcases hg : getExternalID na node.ProviderID with ⟨r, calls⟩
  rw [hg] at he
  simp only at he
  subst he
  simp [sync, h, hg]

theorem sync_upToDate (na : nodeAnnotater) (key : String) (node : Node) (eid : String)
    (h : na.ns key = some node) (he : (getExternalID na node.ProviderID).1 = .ok eid)
    (hlen : node.lenAnnotations ≠ 0) (hsame : eid = node.annotation InstanceIDAnnotationKey) :
    sync na key = (na, (getExternalID na node.ProviderID).2) := by
  rcases hg : getExternalID na node.ProviderID with ⟨r, calls⟩
  rw [hg] at he
  simp only at he
  subst he
  simp [sync, h, hg, hlen, ← hsame]

theorem sync_write (na : nodeAnnotater) (key : String) (node : Node) (eid : String)
    (h : na.ns key = some node) (he : (getExternalID na node.ProviderID).1 = .ok eid)
    (hdiff : ¬ (node.lenAnnotations ≠ 0 ∧ eid = node.annotation InstanceIDAnnotationKey)) :
    sync na key =
      ({ na with ns := Function.update na.ns key (some (annotated node eid)) },
        (getExternalID na node.ProviderID).2 ++ [.nodesUpdate (annotated node eid)] ++
          (match na.c (annotated node eid) with
            | .error _ => [.queueAdd key]
            | .ok _ => [])) := by
  rcases hg : getExternalID na node.ProviderID with ⟨r, calls⟩
  rw [hg] at he
  simp only at he
  subst he
  have hc : (decide (node.lenAnnotations ≠ 0) &&
      decide (eid = node.annotation InstanceIDAnnotationKey)) = false := by
    by_cases h1 : node.lenAnnotations ≠ 0
    · have h2 : eid ≠ node.annotation InstanceIDAnnotationKey := fun h2 => hdiff ⟨h1, h2⟩
      simp [h2]
    · simp [h1]
  unfold sync
  simp only [h, hg, hc]
  cases hu : na.c (annotated node eid) <;> simp


/-! ## Maps and the decimal form -/

theorem lookup_assign_self (m : GoMap) (k v : String) :
    (GoMap.assign m k v).lookup k = some v := by
  induction m with
  | nil => simp [GoMap.assign, List.lookup]
  | cons e m ih =>
    obtain ⟨k', v'⟩ := e
    by_cases hk : k' = k
    · simp [GoMap.assign, hk, List.lookup]
    · have hb : (k == k') = false := by simpa using fun h => hk h.symm
      simp [GoMap.assign, hk, List.lookup, hb, ih]

theorem lookup_assign_other (m : GoMap) (k v j : String) (hj : j ≠ k) :
    (GoMap.assign m k v).lookup j = m.lookup j := by
  induction m with
  | nil =>
    have hb : (j == k) = false := by simpa using hj
    simp [GoMap.assign, List.lookup, hb]
  | cons e m ih =>
    obtain ⟨k', v'⟩ := e
    by_cases hk : k' = k
    · subst hk
      have hb : (j == k') = false := by simpa using hj
      simp [GoMap.assign, List.lookup, hb]
    · by_cases hjk : j = k'
      · subst hjk
        simp [GoMap.assign, hk, List.lookup]
      · have hb : (j == k') = false := by simpa using hjk
        simp [GoMap.assign, hk, List.lookup, hb, ih]

theorem formatBits_ne_nil (fuel u : Nat) (acc : List Char) (h : fuel ≠ 0 ∨ acc ≠ []) :
    formatBits fuel u acc ≠ [] := by
  induction fuel generalizing u acc with
  | zero =>
    rcases h with h | h
    · exact absurd rfl h
    · simpa [formatBits] using h
  | succ fuel ih =>
    unfold formatBits
    split
    · exact ih _ _ (Or.inr (by simp))
    · simp

theorem FormatUint_ne_empty (n : Nat) : FormatUint n ≠ "" := by
  intro h
  have h1 : (FormatUint n).data = [] := by rw [h]
  exact formatBits_ne_nil 20 (n % 2 ^ 64) [] (Or.inl (by decide)) h1


/-! ## The reconciler: claims on `sync` -/

theorem syncRepeat_fixed (na : nodeAnnotater) (key : String) (calls : List Call)
    (h : sync na key = (na, calls)) (n : Nat) :
    (syncRepeat na key n).1 = na ∧ ∀ c ∈ (syncRepeat na key n).2, c ∈ calls := by
  induction n with
  | zero => simp [syncRepeat]
  | succ n ih =>
    simp only [syncRepeat, h]
    refine ⟨ih.1, fun c hc => ?_⟩
    rcases List.mem_append.mp hc with hc | hc
    · exact hc
    · exact ih.2 c hc

/-- C1: when the cached node of a key has an annotation map in which the
identity annotation is already the identifier that `getExternalID` returns for
the node's provider URI, `sync` makes no update call and no enqueue call and
leaves the annotater as it was; the same holds for any number of passes run one
after the other on that state. -/
theorem sync_idempotent (na : nodeAnnotater) (key : String) (node : Node) (m : GoMap)
    (eid : String) (hnode : na.ns key = some node) (hmap : node.Annotations = some m)
    (hres : (getExternalID na node.ProviderID).1 = .ok eid)
    (hsame : m.lookup InstanceIDAnnotationKey = some eid) :
    (sync na key).1 = na ∧
    (∀ c ∈ (sync na key).2, c.isUpdate = false ∧ c.isEnqueue = false) ∧
    ∀ n, (syncRepeat na key n).1 = na ∧
      ∀ c ∈ (syncRepeat na key n).2, c.isUpdate = false ∧ c.isEnqueue = false := by
  have hlen : node.lenAnnotations ≠ 0 := by
    cases m with
    | nil => simp [List.lookup] at hsame
    | cons e m => simp [Node.lenAnnotations, hmap]
  have hann : eid = node.annotation InstanceIDAnnotationKey := by
    simp [Node.annotation, hmap, GoMap.index, hsame]
  have hs := sync_upToDate na key node eid hnode hres hlen hann
  have hcalls : ∀ c ∈ (getExternalID na node.ProviderID).2,
      c.isUpdate = false ∧ c.isEnqueue = false := fun c hc =>
    isLookup_not_update (getExternalID_calls_lookup na node.ProviderID c hc)
  refine ⟨by rw [hs], by rw [hs]; exact hcalls, fun n => ?_⟩
  have hr := syncRepeat_fixed na key _ hs n
  exact ⟨hr.1, fun c hc => hcalls c (hr.2 c hc)⟩

/-- C1, evaluated: the node `n1` carries the identifier 42 that the inventory
reports; three passes make three lookups and nothing else. -/
theorem sync_idempotent_witness :
    (syncRepeat (sampleAnnotater (sampleNode (some [(InstanceIDAnnotationKey, "42")]))
        (.ok ⟨42⟩) (.ok ())) "n1" 3).2 =
      [.getInstance "p" "z" "v", .getInstance "p" "z" "v", .getInstance "p" "z" "v"] ∧
    ∀ c ∈ (syncRepeat (sampleAnnotater (sampleNode (some [(InstanceIDAnnotationKey, "42")]))
        (.ok ⟨42⟩) (.ok ())) "n1" 3).2, c.isUpdate = false ∧ c.isEnqueue = false :=
  ⟨by decide,
    ((sync_idempotent (sampleAnnotater (sampleNode (some [(InstanceIDAnnotationKey, "42")]))
        (.ok ⟨42⟩) (.ok ())) "n1" (sampleNode (some [(InstanceIDAnnotationKey, "42")]))
        [(InstanceIDAnnotationKey, "42")] "42" (by decide) (by decide) (by decide)
        (by decide)).2.2 3).2⟩

/-- C2, refuted as stated: the key `gone` is not in the cache, and the pass
puts it back on the queue. -/
theorem sync_notFound_counterexample :
    (sampleAnnotater (sampleNode none) (.ok ⟨42⟩) (.ok ())).ns "gone" = none ∧
    ((sync (sampleAnnotater (sampleNode none) (.ok ⟨42⟩) (.ok ())) "gone").2.filter
      Call.isEnqueue).length = 1 ∧
    ¬ ∀ c ∈ (sync (sampleAnnotater (sampleNode none) (.ok ⟨42⟩) (.ok ())) "gone").2,
      c.isEnqueue = false := by
  decide

/-- C2, amended: when the node of a key is not found in the cache, `sync`
makes no update call and no inventory lookup and leaves the annotater as it
was, and it puts the key back on the queue, once: the pass counts as a failure
to be retried.  Every call of the pass is an enqueue of that key; by which of
the two enqueue operations of the queue is not part of the statement. -/
theorem sync_notFound_requeues (na : nodeAnnotater) (key : String) (h : na.ns key = none) :
    (sync na key).1 = na ∧
    (∀ c ∈ (sync na key).2, c.isUpdate = false ∧ c.isLookup = false) ∧
    ((sync na key).2.filter Call.isEnqueue).length = 1 ∧
    ∀ c ∈ (sync na key).2, c = .queueAdd key ∨ c = .queueAddRateLimited key := by
  rw [sync_notFound na key h]
  simp [Call.isUpdate, Call.isLookup, Call.isEnqueue]

/-- C2 amended, evaluated on the key `gone`: one enqueue, no update, no lookup. -/
theorem sync_notFound_requeues_witness :
    ((sync (sampleAnnotater (sampleNode none) (.ok ⟨42⟩) (.ok ())) "gone").2.filter
      Call.isEnqueue).length = 1 ∧
    ∀ c ∈ (sync (sampleAnnotater (sampleNode none) (.ok ⟨42⟩) (.ok ())) "gone").2,
      c.isUpdate = false ∧ c.isLookup = false :=
  ⟨(sync_notFound_requeues (sampleAnnotater (sampleNode none) (.ok ⟨42⟩) (.ok ())) "gone"
      (by decide)).2.2.1,
    (sync_notFound_requeues (sampleAnnotater (sampleNode none) (.ok ⟨42⟩) (.ok ())) "gone"
      (by decide)).2.1⟩

theorem stale_not_upToDate (node : Node) (eid : String) (n : Nat) (hfmt : eid = FormatUint n)
    (hstale : node.annotation? InstanceIDAnnotationKey ≠ some eid) :
    ¬ (node.lenAnnotations ≠ 0 ∧ eid = node.annotation InstanceIDAnnotationKey) := by
  rintro ⟨_, heq⟩
  cases hm : node.Annotations with
  | none =>
    simp only [Node.annotation, hm] at heq
    exact FormatUint_ne_empty n (hfmt ▸ heq)
  | some m =>
    simp only [Node.annotation, Node.annotation?, hm, GoMap.index] at heq hstale
    cases hl : m.lookup InstanceIDAnnotationKey with
    | none =>
      rw [hl] at heq
      exact FormatUint_ne_empty n (hfmt ▸ heq)
    | some v =>
      rw [hl] at heq hstale
      exact hstale (by simpa using heq.symm)

/-- C3: when the node of a key has no identity annotation (nil map, empty map
or a map without the key) or one that differs from the identifier `eid` that
`getExternalID` returns, `sync` makes exactly one update call.  Its payload is
the node read from the cache with the same name, namespace, provider URI and
boot identifier, and with an annotation map that holds `eid` under the identity key
and, under every other key, exactly what the node held before. -/
theorem sync_writes_annotation (na : nodeAnnotater) (key : String) (node : Node) (eid : String)
    (hnode : na.ns key = some node)
    (hres : (getExternalID na node.ProviderID).1 = .ok eid)
    (hstale : node.annotation? InstanceIDAnnotationKey ≠ some eid) :
    ∃ payload : Node,
      (sync na key).2.filter Call.isUpdate = [.nodesUpdate payload] ∧
      payload.Name = node.Name ∧ payload.Namespace = node.Namespace ∧
      payload.ProviderID = node.ProviderID ∧ payload.BootID = node.BootID ∧
      payload.Annotations
        = some (GoMap.assign (node.Annotations.getD []) InstanceIDAnnotationKey eid) ∧
      payload.annotation? InstanceIDAnnotationKey = some eid ∧
      ∀ k, k ≠ InstanceIDAnnotationKey → payload.annotation? k = node.annotation? k := by
  obtain ⟨n, hfmt⟩ := getExternalID_ok_format na node.ProviderID eid hres
  have hs := sync_write na key node eid hnode hres (stale_not_upToDate node eid n hfmt hstale)
  have hlook : (getExternalID na node.ProviderID).2.filter Call.isUpdate = [] := by
    rw [List.filter_eq_nil_iff]
    intro c hc
    simp [(isLookup_not_update (getExternalID_calls_lookup na node.ProviderID c hc)).1]
  refine ⟨annotated node eid, ?_, rfl, rfl, rfl, rfl, rfl, ?_, ?_⟩
  · rw [hs]
    cases na.c (annotated node eid) <;>
      simp [List.filter_append, hlook, Call.isUpdate, List.filter]
  · simp [Node.annotation?, annotated, lookup_assign_self]
  · intro k hk
    cases hm : node.Annotations with
    | none =>
      have hb : (k == InstanceIDAnnotationKey) = false := by simpa using hk
      simp [Node.annotation?, annotated, hm, GoMap.assign, List.lookup, hb]
    | some m => simp [Node.annotation?, annotated, hm, lookup_assign_other m _ _ k hk]

/-- C3, evaluated: the node `n1` holds one unrelated annotation and a stale
identifier; the one update carries the identifier 42 and keeps the other entry. -/
theorem sync_writes_annotation_witness :
    ∃ payload : Node,
      (sync (sampleAnnotater
          (sampleNode (some [("zone", "z"), (InstanceIDAnnotationKey, "7")]))
          (.ok ⟨42⟩) (.ok ())) "n1").2.filter Call.isUpdate = [.nodesUpdate payload] ∧
      payload.Annotations = some [("zone", "z"), (InstanceIDAnnotationKey, "42")] := by
  obtain ⟨payload, h1, _, _, _, _, h5, _⟩ :=
    sync_writes_annotation
      (sampleAnnotater (sampleNode (some [("zone", "z"), (InstanceIDAnnotationKey, "7")]))
        (.ok ⟨42⟩) (.ok ())) "n1"
      (sampleNode (some [("zone", "z"), (InstanceIDAnnotationKey, "7")])) "42"
      (by decide) (by decide) (by decide)
  exact ⟨payload, h1, by rw [h5]; decide⟩

/-- C4: when `getExternalID` returns an error for the provider URI of the
node of a key, `sync` makes no update call and leaves the annotater, and with it
the cached node and its annotations, as it was. -/
theorem sync_resolveError_no_write (na : nodeAnnotater) (key : String) (node : Node)
    (e : ResolveError) (hnode : na.ns key = some node)
    (hres : (getExternalID na node.ProviderID).1 = .error e) :
    (∀ c ∈ (sync na key).2, c.isUpdate = false) ∧
    (sync na key).1 = na ∧ (sync na key).1.ns key = some node := by
  rw [sync_resolveError na key node e hnode hres]
  refine ⟨fun c hc => ?_, rfl, hnode⟩
  rcases List.mem_append.mp hc with hc | hc
  · exact (isLookup_not_update (getExternalID_calls_lookup na node.ProviderID c hc)).1
  · simp only [List.mem_singleton] at hc
    subst hc
    rfl

/-- C4, evaluated: the inventory fails for the node `n1`, which has a stale
annotation; the pass makes the lookup and no update. -/
theorem sync_resolveError_no_write_witness :
    (∀ c ∈ (sync (sampleAnnotater (sampleNode (some [(InstanceIDAnnotationKey, "7")]))
        (.error "timeout") (.ok ())) "n1").2, c.isUpdate = false) ∧
    (sync (sampleAnnotater (sampleNode (some [(InstanceIDAnnotationKey, "7")]))
        (.error "timeout") (.ok ())) "n1").1.ns "n1"
      = some (sampleNode (some [(InstanceIDAnnotationKey, "7")])) :=
  ⟨(sync_resolveError_no_write
      (sampleAnnotater (sampleNode (some [(InstanceIDAnnotationKey, "7")]))
        (.error "timeout") (.ok ())) "n1"
      (sampleNode (some [(InstanceIDAnnotationKey, "7")])) (.unableToQuery "timeout")
      (by decide) (by decide)).1,
   (sync_resolveError_no_write
      (sampleAnnotater (sampleNode (some [(InstanceIDAnnotationKey, "7")]))
        (.error "timeout") (.ok ())) "n1"
      (sampleNode (some [(InstanceIDAnnotationKey, "7")])) (.unableToQuery "timeout")
      (by decide) (by decide)).2.2⟩


/-! ## Retries: claims on the failure paths -/

theorem sync_calls_cases (na : nodeAnnotater) (key : String) :
    ∀ c ∈ (sync na key).2, c.isLookup = true ∨ c.isUpdate = true ∨ c = .queueAdd key := by
  intro c hc
  have hl := getExternalID_calls_lookup na
  cases hn : na.ns key with
  | none =>
    rw [sync_notFound na key hn] at hc
    exact Or.inr (Or.inr (by simpa using hc))
  | some node =>
    cases hr : (getExternalID na node.ProviderID).1 with
    | error e =>
      rw [sync_resolveError na key node e hn hr] at hc
      rcases List.mem_append.mp hc with hc | hc
      · exact Or.inl (hl _ c hc)
      · exact Or.inr (Or.inr (by simpa using hc))
    | ok eid =>
      by_cases hup : node.lenAnnotations ≠ 0 ∧ eid = node.annotation InstanceIDAnnotationKey
      · rw [sync_upToDate na key node eid hn hr hup.1 hup.2] at hc
        exact Or.inl (hl _ c hc)
      · rw [sync_write na key node eid hn hr hup] at hc
        simp only [List.mem_append, List.mem_singleton] at hc
        rcases hc with (hc | hc) | hc
        · exact Or.inl (hl _ c hc)
        · exact Or.inr (Or.inl (by rw [hc]; rfl))
        · cases hu : na.c (annotated node eid) <;> rw [hu] at hc <;> simp at hc
          exact Or.inr (Or.inr hc)

/-- C5, the code at failing inputs: a pass that fails in the inventory lookup,
a pass that fails on the provider URI and a pass whose update is rejected each
end with the plain `queue.Add(key)`; and no pass of `sync`, whatever the
collaborators answer, calls `queue.AddRateLimited`. -/
theorem sync_failure_plain_add :
    (sync (sampleAnnotater (sampleNode none) (.error "timeout") (.ok ())) "n1").2
      = [.getInstance "p" "z" "v", .queueAdd "n1"] ∧
    (sync (sampleAnnotater { sampleNode none with ProviderID := "aws://x/y/z" }
        (.ok ⟨42⟩) (.ok ())) "n1").2 = [.queueAdd "n1"] ∧
    (sync (sampleAnnotater (sampleNode none) (.ok ⟨42⟩) (.error "conflict")) "n1").2
      = [.getInstance "p" "z" "v",
          .nodesUpdate (sampleNode (some [(InstanceIDAnnotationKey, "42")])),
          .queueAdd "n1"] ∧
    ∀ (na : nodeAnnotater) (key k : String), Call.queueAddRateLimited k ∉ (sync na key).2 := by
  refine ⟨by decide, by decide, by decide, fun na key k hk => ?_⟩
  rcases sync_calls_cases na key _ hk with h | h | h
  · simp [Call.isLookup] at h
  · simp [Call.isUpdate] at h
  · simp at h

/-- C6, the code at a failing input: the key `gone` has no node in the cache,
the pass fails and puts the key back on the queue, and `processNextWorkItem`
calls `queue.Forget` for it all the same; for every key and every outcome of
the pass the calls are those of `sync` followed by `Forget` and `Done`. -/
theorem processNextWorkItem_forgets_after_failure :
    (processNextWorkItem (sampleAnnotater (sampleNode none) (.ok ⟨42⟩) (.ok ())) "gone" false).2.2
      = [.queueGet, .queueAdd "gone", .queueForget "gone", .queueDone "gone"] ∧
    (processNextWorkItem (sampleAnnotater (sampleNode none) (.error "timeout") (.ok ()))
        "n1" false).2.2
      = [.queueGet, .getInstance "p" "z" "v", .queueAdd "n1", .queueForget "n1",
          .queueDone "n1"] ∧
    ∀ (na : nodeAnnotater) (key : String), (processNextWorkItem na key false).2.2
      = [.queueGet] ++ (sync na key).2 ++ [.queueForget key, .queueDone key] := by
  refine ⟨by decide, by decide, fun na key => ?_⟩
  simp [processNextWorkItem]


/-! ## The identity resolver: parsing claims -/

theorem getExternalID_of_parse (na : nodeAnnotater) (nodeUrl : String) (u : URL)
    (hu : urlParse nodeUrl = .ok u) (hs : u.Scheme = "gce") :
    getExternalID na nodeUrl =
      match stringsSplit u.Path '/' with
      | [part0, zone, vm] =>
        if part0.length ≠ 0 then (.error .partOneLength, [])
        else
          match na.getInstance u.Host zone vm with
          | .error err => (.error (.unableToQuery err), [.getInstance u.Host zone vm])
          | .ok inst => (.ok (FormatUint inst.Id), [.getInstance u.Host zone vm])
      | _ => (.error .threePartPath, []) := by
  unfold getExternalID
  simp only [hu, hs, ne_eq, not_true_eq_false, if_false]

/-- C7, refuted as stated: the scheme of `GCE://p/z/v` is written `GCE`, which
is not exactly `gce`; `url.Parse` reports it in lower case, the test of line 164
passes, and `getExternalID` makes the lookup and returns the identifier. -/
theorem getExternalID_scheme_case_counterexample :
    getscheme "GCE://p/z/v".data = .ok ("GCE".data, "//p/z/v".data) ∧
    ("GCE" : String) ≠ "gce" ∧
    urlParse "GCE://p/z/v" = .ok { Scheme := "gce", Host := "p", Path := "/z/v" } ∧
    getExternalID (sampleAnnotater (sampleNode none) (.ok ⟨42⟩) (.ok ())) "GCE://p/z/v"
      = (.ok "42", [.getInstance "p" "z" "v"]) := by
  decide

/-- C7, amended: when the scheme that `url.Parse` reports for a provider URI
(the text before the first colon, in lower case) is not `gce`, because the URI
does not parse or because it parses with another scheme,
`getExternalID` returns an error and no identifier, either the parse failure of
line 162 or the scheme mismatch of line 165, and makes no inventory lookup. -/
theorem getExternalID_wrong_scheme (na : nodeAnnotater) (nodeUrl : String)
    (h : ∀ u, urlParse nodeUrl = .ok u → u.Scheme ≠ "gce") :
    ((∃ err, (getExternalID na nodeUrl).1 = .error (.failedToParse nodeUrl err)) ∨
      (getExternalID na nodeUrl).1 = .error (.notOnGCE nodeUrl)) ∧
    (getExternalID na nodeUrl).2 = [] := by
  unfold getExternalID
  cases hp : urlParse nodeUrl with
  | error err => exact ⟨Or.inl ⟨err, rfl⟩, rfl⟩
  | ok u =>
    have hne : u.Scheme ≠ "gce" := h u hp
    simp [hne]

/-- C7 amended, evaluated on `aws://x/y/z`: the URI parses with the scheme `aws`, and
the result is the scheme mismatch. -/
theorem getExternalID_wrong_scheme_witness :
    urlParse "aws://x/y/z" = .ok { Scheme := "aws", Host := "x", Path := "/y/z" } ∧
    getExternalID (sampleAnnotater (sampleNode none) (.ok ⟨42⟩) (.ok ())) "aws://x/y/z"
      = (.error (.notOnGCE "aws://x/y/z"), []) ∧
    (getExternalID (sampleAnnotater (sampleNode none) (.ok ⟨42⟩) (.ok ())) "aws://x/y/z").2 = [] :=
  ⟨by decide, by decide,
    (getExternalID_wrong_scheme (sampleAnnotater (sampleNode none) (.ok ⟨42⟩) (.ok ()))
      "aws://x/y/z" (fun u hu => by
        have hp : urlParse "aws://x/y/z"
            = .ok { Scheme := "aws", Host := "x", Path := "/y/z" } := by decide
        rw [hp] at hu
        cases hu
        decide)).2⟩

/-- C8: for a provider URI that parses with the scheme `gce`, `getExternalID`
returns a parse error and makes no inventory lookup unless the path of the URI,
split on `/`, has exactly three segments of which the first is empty: the error
is that of line 170 or that of line 173, and it is that of line 170 whenever
the number of segments is not three (two, or four and more). -/
theorem getExternalID_path_segments (na : nodeAnnotater) (nodeUrl : String) (u : URL)
    (hu : urlParse nodeUrl = .ok u) (hs : u.Scheme = "gce")
    (hshape : ¬ ∃ zone vm, stringsSplit u.Path '/' = ["", zone, vm]) :
    (getExternalID na nodeUrl = (.error .threePartPath, []) ∨
      getExternalID na nodeUrl = (.error .partOneLength, [])) ∧
    ((stringsSplit u.Path '/').length ≠ 3 →
      getExternalID na nodeUrl = (.error .threePartPath, [])) := by
  rw [getExternalID_of_parse na nodeUrl u hu hs]
  have hthree : (stringsSplit u.Path '/').length ≠ 3 →
      (match stringsSplit u.Path '/' with
        | [part0, zone, vm] =>
          if part0.length ≠ 0 then
            ((.error .partOneLength, []) : Except ResolveError String × List Call)
          else
            match na.getInstance u.Host zone vm with
            | .error err => (.error (.unableToQuery err), [.getInstance u.Host zone vm])
            | .ok inst => (.ok (FormatUint inst.Id), [.getInstance u.Host zone vm])
        | _ => (.error .threePartPath, [])) = (.error .threePartPath, []) := by
    intro hlen
    split
    · rename_i heq
      rw [heq] at hlen
      simp at hlen
    · rfl
  refine ⟨?_, hthree⟩
  by_cases hlen : (stringsSplit u.Path '/').length = 3
  · right
    obtain ⟨part0, zone, vm, hsp⟩ := List.length_eq_three.mp hlen
    have hl : part0.length ≠ 0 := by
      intro hz
      apply hshape
      have hd : part0.data = [] := List.length_eq_zero.mp hz
      have h0 : part0 = "" := by
        cases part0
        simp_all
      exact ⟨zone, vm, by rw [hsp, h0]⟩
    simp [hsp, hl]
  · left
    exact hthree hlen

/-- C8, evaluated: `gce://proj-1/only-one-segment` has the path segments `""`
and `only-one-segment`, and `gce://p/a/b/c` has four; both give the error of
line 170. -/
theorem getExternalID_path_segments_witness :
    stringsSplit "/only-one-segment" '/' = ["", "only-one-segment"] ∧
    getExternalID (sampleAnnotater (sampleNode none) (.ok ⟨42⟩) (.ok ()))
      "gce://proj-1/only-one-segment" = (.error .threePartPath, []) ∧
    getExternalID (sampleAnnotater (sampleNode none) (.ok ⟨42⟩) (.ok ()))
      "gce://p/a/b/c" = (.error .threePartPath, []) :=
  ⟨by decide,
    (getExternalID_path_segments (sampleAnnotater (sampleNode none) (.ok ⟨42⟩) (.ok ()))
      "gce://proj-1/only-one-segment"
      { Scheme := "gce", Host := "proj-1", Path := "/only-one-segment" }
      (by decide) (by decide)
      (fun ⟨_, _, h⟩ =>
        absurd (congrArg List.length h : (2 : Nat) = 3) (show ¬ (2 : Nat) = 3 by decide))).2
      (by decide),
    (getExternalID_path_segments (sampleAnnotater (sampleNode none) (.ok ⟨42⟩) (.ok ()))
      "gce://p/a/b/c" { Scheme := "gce", Host := "p", Path := "/a/b/c" }
      (by decide) (by decide)
      (fun ⟨_, _, h⟩ =>
        absurd (congrArg List.length h : (4 : Nat) = 3) (show ¬ (4 : Nat) = 3 by decide))).2
      (by decide)⟩


/-! ## The identity resolver: the arguments of the lookup -/

theorem unreserved_cases {c : Char} (h : unreserved c = true) :
    isLetter c = true ∨ isDigit c = true ∨ c = '-' ∨ c = '_' ∨ c = '.' ∨ c = '~' := by
  simpa [unreserved, or_assoc] using h

theorem unreserved_ne {c d : Char} (h : unreserved c = true) (hd : unreserved d = false) :
    c ≠ d := by
  intro hcd
  rw [hcd, hd] at h
  exact Bool.noConfusion h

theorem unreserved_not_mem {l : List Char} (hl : ∀ c ∈ l, unreserved c = true) (d : Char)
    (hd : unreserved d = false) : d ∉ l :=
  fun hm => absurd (hl d hm) (by simp [hd])

theorem unreserved_host (c : Char) (h : unreserved c = true) :
    shouldEscape c .encodeHost = false := by
  rcases unreserved_cases h with h | h | h | h | h | h
  · simp [shouldEscape, h]
  · simp [shouldEscape, h]
  all_goals subst h; decide

theorem split_not_mem (c : Char) (cutc : Bool) (l : List Char) (h : c ∉ l) :
    split c cutc l = (l, []) := by
  induction l with
  | nil => rfl
  | cons x l ih =>
    have hx : x ≠ c := fun hx => h (by simp [hx])
    have hl : c ∉ l := fun hl => h (by simp [hl])
    simp [split, hx, ih hl]

theorem split_at_first (c : Char) (l t : List Char) (h : c ∉ l) :
    split c false (l ++ c :: t) = (l, c :: t) := by
  induction l with
  | nil => simp [split]
  | cons x l ih =>
    have hx : x ≠ c := fun hx => h (by simp [hx])
    have hl : c ∉ l := fun hl => h (by simp [hl])
    simp [split, hx, ih hl]

theorem stringsLastIndex_not_mem (c : Char) (l : List Char) (h : c ∉ l) :
    stringsLastIndex c l = none := by
  induction l with
  | nil => rfl
  | cons x l ih =>
    have hx : x ≠ c := fun hx => h (by simp [hx])
    have hl : c ∉ l := fun hl => h (by simp [hl])
    simp [stringsLastIndex, hx, ih hl]

theorem unescapeCheck_host (l : List Char) (hl : ∀ c ∈ l, unreserved c = true) :
    unescapeCheck .encodeHost l = none := by
  induction l with
  | nil => rfl
  | cons x l ih =>
    have hx : x ≠ '%' := unreserved_ne (hl x (by simp)) (by decide)
    have hs := unreserved_host x (hl x (by simp))
    have hr := ih (fun c hc => hl c (by simp [hc]))
    unfold unescapeCheck
    simp [hx, hs, hr]

theorem unescapeCheck_path (l : List Char) (hl : '%' ∉ l) :
    unescapeCheck .encodePath l = none := by
  induction l with
  | nil => rfl
  | cons x l ih =>
    have hx : x ≠ '%' := fun hx => hl (by simp [hx])
    have hr := ih (fun hc => hl (by simp [hc]))
    unfold unescapeCheck
    simp [hx, hr]

theorem unescapeDecode_id (mode : encoding) (l : List Char) (hl : '%' ∉ l) (hp : '+' ∉ l) :
    unescapeDecode mode l = l := by
  induction l with
  | nil => rfl
  | cons x l ih =>
    have hx : x ≠ '%' := fun hx => hl (by simp [hx])
    have hx2 : x ≠ '+' := fun hx => hp (by simp [hx])
    have hr := ih (fun hc => hl (by simp [hc])) (fun hc => hp (by simp [hc]))
    unfold unescapeDecode
    simp [hx, hx2, hr]

theorem splitOnByte_not_mem (c : Char) (l : List Char) (h : c ∉ l) :
    splitOnByte c l = [l] := by
  induction l with
  | nil => rfl
  | cons x l ih =>
    have hx : x ≠ c := fun hx => h (by simp [hx])
    have hl : c ∉ l := fun hl => h (by simp [hl])
    simp [splitOnByte, hx, ih hl]

theorem splitOnByte_at_first (c : Char) (l t : List Char) (h : c ∉ l) :
    splitOnByte c (l ++ c :: t) = l :: splitOnByte c t := by
  induction l with
  | nil => simp [splitOnByte]
  | cons x l ih =>
    have hx : x ≠ c := fun hx => h (by simp [hx])
    have hl : c ∉ l := fun hl => h (by simp [hl])
    simp [splitOnByte, hx, ih hl]


theorem getLast?_ne_of_not_mem (c : Char) (l : List Char) (h : c ∉ l) : l.getLast? ≠ some c := by
  intro hl
  exact h (List.mem_of_getLast?_eq_some hl)

theorem parse_gce (p z n : List Char) (hp : ∀ c ∈ p, unreserved c = true)
    (hz : ∀ c ∈ z, unreserved c = true) (hn : ∀ c ∈ n, unreserved c = true) :
    parse ('g' :: 'c' :: 'e' :: ':' :: '/' :: '/' :: (p ++ '/' :: (z ++ '/' :: n))) false
      = .ok { Scheme := "gce", Host := String.mk p,
              Path := String.mk ('/' :: (z ++ '/' :: n)) } := by
  have hpath : ∀ d, unreserved d = false → d ≠ '/' → d ∉ '/' :: (z ++ '/' :: n) := by
    intro d hd hsl hm
    simp only [List.mem_cons, List.mem_append] at hm
    rcases hm with hm | hm | hm | hm
    · exact hsl hm
    · exact unreserved_not_mem hz d hd hm
    · exact hsl hm
    · exact unreserved_not_mem hn d hd hm
  have hnot : ∀ d, unreserved d = false → d ≠ '/' →
      d ∉ '/' :: '/' :: (p ++ '/' :: (z ++ '/' :: n)) := by
    intro d hd hsl hm
    simp only [List.mem_cons, List.mem_append] at hm
    rcases hm with hm | hm | hm | hm
    · exact hsl hm
    · exact hsl hm
    · exact unreserved_not_mem hp d hd hm
    · exact hpath d hd hsl (by simpa only [List.mem_cons, List.mem_append] using hm)
  have hscheme :
      getscheme ('g' :: 'c' :: 'e' :: ':' :: '/' :: '/' :: (p ++ '/' :: (z ++ '/' :: n)))
        = .ok (['g', 'c', 'e'], '/' :: '/' :: (p ++ '/' :: (z ++ '/' :: n))) := by
    simp [getscheme, getschemeFrom, isLetter, isDigit]
  have hq := hnot '?' (by decide) (by decide)
  have hauth : parseAuthority p = .ok p := by
    unfold parseAuthority
    rw [stringsLastIndex_not_mem '@' p (unreserved_not_mem hp _ (by decide))]
    unfold parseHost
    have hb : p.head? ≠ some '[' := fun hb =>
      unreserved_not_mem hp '[' (by decide) (List.mem_of_mem_head? hb)
    simp [hb, unescape, unescapeCheck_host p hp,
      unescapeDecode_id _ p (unreserved_not_mem hp _ (by decide))
        (unreserved_not_mem hp _ (by decide))]
  have hrest : unescape ('/' :: (z ++ '/' :: n)) .encodePath = .ok ('/' :: (z ++ '/' :: n)) := by
    simp only [unescape, unescapeCheck_path _ (hpath '%' (by decide) (by decide)),
      unescapeDecode_id _ _ (hpath '%' (by decide) (by decide))
        (hpath '+' (by decide) (by decide))]
  have hlast := getLast?_ne_of_not_mem '?' _ hq
  have hsplitq := split_not_mem '?' true _ hq
  have hsplit := split_at_first '/' p (z ++ '/' :: n)
    (fun hm => absurd (hp '/' hm) (by decide))
  have hlower : List.map Char.toLower ['g', 'c', 'e'] = ['g', 'c', 'e'] := by decide
  unfold parse
  simp only [hscheme, hlast, hsplitq, hlower]
  simp [hsplit, hauth, hrest]

theorem urlParse_gce (project zone name : String)
    (hp : ∀ c ∈ project.data, unreserved c = true) (hz : ∀ c ∈ zone.data, unreserved c = true)
    (hn : ∀ c ∈ name.data, unreserved c = true) :
    urlParse ("gce://" ++ project ++ "/" ++ zone ++ "/" ++ name)
      = .ok { Scheme := "gce", Host := project, Path := "/" ++ zone ++ "/" ++ name } := by
  have hdata : ("gce://" ++ project ++ "/" ++ zone ++ "/" ++ name).data
      = 'g' :: 'c' :: 'e' :: ':' :: '/' :: '/' ::
          (project.data ++ '/' :: (zone.data ++ '/' :: name.data)) := by
    simp [String.data_append]
  have hpathdata : "/" ++ zone ++ "/" ++ name
      = String.mk ('/' :: (zone.data ++ '/' :: name.data)) := by
    apply String.ext
    simp [String.data_append]
  have hfrag : '#' ∉ 'g' :: 'c' :: 'e' :: ':' :: '/' :: '/' ::
      (project.data ++ '/' :: (zone.data ++ '/' :: name.data)) := by
    intro hm
    simp only [List.mem_cons, List.mem_append] at hm
    rcases hm with hm | hm | hm | hm | hm | hm | hm | hm | hm | hm | hm
    all_goals first
      | exact unreserved_not_mem hp '#' (by decide) hm
      | exact unreserved_not_mem hz '#' (by decide) hm
      | exact unreserved_not_mem hn '#' (by decide) hm
      | exact absurd hm (by decide)
  unfold urlParse
  rw [hdata, split_not_mem '#' true _ hfrag]
  simp only [parse_gce project.data zone.data name.data hp hz hn, hpathdata]
  rfl

theorem stringsSplit_path (zone name : String) (hz : '/' ∉ zone.data) (hn : '/' ∉ name.data) :
    stringsSplit ("/" ++ zone ++ "/" ++ name) '/' = ["", zone, name] := by
  have hpathdata : ("/" ++ zone ++ "/" ++ name).data
      = [] ++ '/' :: (zone.data ++ '/' :: name.data) := by
    simp [String.data_append]
  unfold stringsSplit
  rw [hpathdata, splitOnByte_at_first '/' [] _ (by simp), splitOnByte_at_first '/' _ _ hz,
    splitOnByte_not_mem '/' _ hn]
  rfl


/-- C9: for a provider URI `gce://<project>/<zone>/<name>` whose project, zone
and name are made of unreserved characters (letters, digits, `-`, `.`, `_`,
`~`, so no `/` and no character with a meaning in a URI), the URI parses with
the scheme `gce`, the host `<project>` and the path segments `""`, `<zone>`,
`<name>`, and `getExternalID` makes exactly one inventory lookup, with the
project, the zone and the name in this order; its result is that of the lookup. -/
theorem getExternalID_lookup_arguments (na : nodeAnnotater) (project zone name : String)
    (hp : ∀ c ∈ project.data, unreserved c = true) (hz : ∀ c ∈ zone.data, unreserved c = true)
    (hn : ∀ c ∈ name.data, unreserved c = true) :
    (∃ u, urlParse ("gce://" ++ project ++ "/" ++ zone ++ "/" ++ name) = .ok u ∧
      u.Scheme = "gce" ∧ u.Host = project ∧ stringsSplit u.Path '/' = ["", zone, name]) ∧
    (getExternalID na ("gce://" ++ project ++ "/" ++ zone ++ "/" ++ name)).2
      = [.getInstance project zone name] ∧
    (getExternalID na ("gce://" ++ project ++ "/" ++ zone ++ "/" ++ name)).1
      = (match na.getInstance project zone name with
        | .error err => .error (.unableToQuery err)
        | .ok inst => .ok (FormatUint inst.Id)) := by
  have hu := urlParse_gce project zone name hp hz hn
  have hsp := stringsSplit_path zone name
    (unreserved_not_mem hz '/' (by decide)) (unreserved_not_mem hn '/' (by decide))
  refine ⟨⟨_, hu, rfl, rfl, hsp⟩, ?_, ?_⟩
  · rw [getExternalID_of_parse na _ _ hu rfl]
    simp only [hsp]
    cases na.getInstance project zone name <;> simp
  · rw [getExternalID_of_parse na _ _ hu rfl]
    simp only [hsp]
    cases na.getInstance project zone name <;> simp

/-- C9, evaluated on `gce://proj-1/us-central1-a/vm-7`. -/
theorem getExternalID_lookup_arguments_witness :
    (getExternalID (sampleAnnotater (sampleNode none) (.ok ⟨42⟩) (.ok ()))
      "gce://proj-1/us-central1-a/vm-7").2
      = [.getInstance "proj-1" "us-central1-a" "vm-7"] :=
  (getExternalID_lookup_arguments (sampleAnnotater (sampleNode none) (.ok ⟨42⟩) (.ok ()))
    "proj-1" "us-central1-a" "vm-7" (by decide) (by decide) (by decide)).2.1

/-! ## The identity resolver: the decimal form of the identifier -/

theorem digit_isDigit (d : Nat) (h : d < 10) : isDigit (Char.ofNat ('0'.toNat + d)) = true := by
  interval_cases d <;> decide

theorem digit_value (d : Nat) (h : d < 10) :
    (Char.ofNat ('0'.toNat + d)).toNat - '0'.toNat = d := by
  interval_cases d <;> decide

theorem digit_ne_zero (d : Nat) (h : d < 10) (h0 : d ≠ 0) : Char.ofNat ('0'.toNat + d) ≠ '0' := by
  interval_cases d <;> first | exact absurd rfl h0 | decide

theorem formatBits_acc (fuel u : Nat) (acc : List Char) :
    formatBits fuel u acc = formatBits fuel u [] ++ acc := by
  induction fuel generalizing u acc with
  | zero => simp [formatBits]
  | succ fuel ih =>
    unfold formatBits
    split
    · rw [ih (u / 10) (_ :: acc), ih (u / 10) [_]]
      simp
    · simp

theorem formatBits_step (fuel u : Nat) :
    formatBits (fuel + 1) u [] =
      if u ≥ 10 then formatBits fuel (u / 10) [] ++ [Char.ofNat ('0'.toNat + u % 10)]
      else [Char.ofNat ('0'.toNat + u)] := by
  conv_lhs => unfold formatBits
  split
  · rw [formatBits_acc]
  · rfl

theorem formatBits_digits (fuel u : Nat) : ∀ c ∈ formatBits fuel u [], isDigit c = true := by
  induction fuel generalizing u with
  | zero => simp [formatBits]
  | succ fuel ih =>
    rw [formatBits_step]
    split
    · intro c hc
      rcases List.mem_append.mp hc with hc | hc
      · exact ih _ c hc
      · rw [List.mem_singleton.mp hc]
        exact digit_isDigit _ (Nat.mod_lt _ (by decide))
    · intro c hc
      rw [List.mem_singleton.mp hc]
      exact digit_isDigit _ (by omega)

theorem formatBits_head (fuel u : Nat) (hu : u < 10 ^ fuel) (h0 : u ≠ 0) :
    ∃ c rest, formatBits fuel u [] = c :: rest ∧ c ≠ '0' := by
  induction fuel generalizing u with
  | zero => simp at hu; exact absurd hu h0
  | succ fuel ih =>
    rw [formatBits_step]
    split
    · rename_i hge
      have hlt : u / 10 < 10 ^ fuel := by
        rw [Nat.div_lt_iff_lt_mul (by decide)]
        rw [pow_succ] at hu
        exact hu
      obtain ⟨c, rest, hc, hne⟩ := ih (u / 10) hlt (by omega)
      exact ⟨c, rest ++ [_], by rw [hc]; rfl, hne⟩
    · exact ⟨_, [], rfl, digit_ne_zero u (by omega) h0⟩

theorem formatBits_value (fuel u : Nat) (hu : u < 10 ^ fuel) :
    (formatBits fuel u []).foldl
      (fun acc c =>
        if isDigit c then acc.map (fun n => n * 10 + (c.toNat - '0'.toNat)) else none)
      (some 0) = some u := by
  induction fuel generalizing u with
  | zero =>
    have : u = 0 := by simpa using hu
    simp [formatBits, this]
  | succ fuel ih =>
    rw [formatBits_step]
    split
    · have hlt : u / 10 < 10 ^ fuel := by
        rw [Nat.div_lt_iff_lt_mul (by decide)]
        rw [pow_succ] at hu
        exact hu
      rw [List.foldl_append, ih (u / 10) hlt]
      simp only [List.foldl_cons, List.foldl_nil,
        digit_isDigit (u % 10) (Nat.mod_lt _ (by decide)), if_true, Option.map_some',
        digit_value (u % 10) (Nat.mod_lt _ (by decide))]
      congr 1
      omega
    · have h10 : u < 10 := by omega
      simp only [List.foldl_cons, List.foldl_nil, digit_isDigit u h10, if_true,
        Option.map_some', digit_value u h10]
      congr 1
      omega

/-- C10: when the provider URI parses (scheme `gce`, three path segments, the
first empty) and the inventory lookup returns an instance whose `Id` is a 64-bit
unsigned value, `getExternalID` returns the decimal string form of that `Id`:
the string holds decimal digits only, is not empty, has no leading zero unless
the `Id` is 0 (then it is `0`), and read as a base-10 number it is the `Id`. -/
theorem getExternalID_decimal (na : nodeAnnotater) (nodeUrl : String) (u : URL)
    (zone vm : String) (inst : Instance)
    (hu : urlParse nodeUrl = .ok u) (hs : u.Scheme = "gce")
    (hsp : stringsSplit u.Path '/' = ["", zone, vm])
    (hinst : na.getInstance u.Host zone vm = .ok inst) (hid : inst.Id < 2 ^ 64) :
    ∃ eid, (getExternalID na nodeUrl).1 = .ok eid ∧ eid = FormatUint inst.Id ∧
      (∀ c ∈ eid.data, isDigit c = true) ∧ eid.data ≠ [] ∧
      (inst.Id ≠ 0 → eid.data.head? ≠ some '0') ∧ (inst.Id = 0 → eid = "0") ∧
      parseDecimal eid = some inst.Id := by
  have hmod : inst.Id % 2 ^ 64 = inst.Id := Nat.mod_eq_of_lt hid
  have hfuel : inst.Id < 10 ^ 20 := lt_trans hid (by decide)
  have hne : formatBits 20 inst.Id [] ≠ [] := formatBits_ne_nil 20 _ [] (Or.inl (by decide))
  have hF : FormatUint inst.Id = String.mk (formatBits 20 inst.Id []) := by
    unfold FormatUint
    rw [hmod]
  refine ⟨FormatUint inst.Id, ?_, rfl, ?_, ?_, ?_, ?_, ?_⟩
  · rw [getExternalID_of_parse na nodeUrl u hu hs]
    simp [hsp, hinst]
  · rw [hF]
    exact formatBits_digits 20 inst.Id
  · rw [hF]
    exact hne
  · intro h0
    obtain ⟨c, rest, hc, hc0⟩ := formatBits_head 20 inst.Id hfuel h0
    rw [hF]
    simp [hc, hc0]
  · intro h0
    rw [h0]
    decide
  · rw [hF]
    simp only [parseDecimal, hne, if_false]
    exact formatBits_value 20 inst.Id hfuel

/-- C10, evaluated on the largest 64-bit value. -/
theorem getExternalID_decimal_witness :
    ∃ eid, (getExternalID (sampleAnnotater (sampleNode none)
        (.ok ⟨18446744073709551615⟩) (.ok ())) "gce://p/z/v").1 = .ok eid ∧
      eid = "18446744073709551615" ∧ parseDecimal eid = some 18446744073709551615 := by
  obtain ⟨eid, h1, h2, _, _, _, _, h7⟩ :=
    getExternalID_decimal (sampleAnnotater (sampleNode none)
        (.ok ⟨18446744073709551615⟩) (.ok ())) "gce://p/z/v"
      { Scheme := "gce", Host := "p", Path := "/z/v" } "z" "v" ⟨18446744073709551615⟩
      (by decide) (by decide) (by decide) (by decide) (by decide)
  exact ⟨eid, h1, by rw [h2]; decide, h7⟩


/-! ## The event handlers: which events reach the queue -/

theorem enqueue_of_key (obj : Object) (key : String) (h : KeyFunc obj = .ok key) :
    enqueue obj = [.queueAdd key] := by
  simp [enqueue, h]

theorem update_nodes (a b : Node) :
    update (.node a) (.node b) = some (if a.BootID ≠ b.BootID then enqueue (.node a) else []) := by
  unfold update
  by_cases h : a.BootID = b.BootID <;> simp [h]

/-- C11: a creation event for an object with a key enqueues that key.  An
update event for the old and the new state of a node, both with the key of the
node, enqueues that key when the two states differ in `BootID`, and enqueues
nothing when the `BootID` is the same, whatever else differs. -/
theorem event_policy (oldNode newNode : Node) (key : String)
    (hold : KeyFunc (.node oldNode) = .ok key) (hnew : KeyFunc (.node newNode) = .ok key) :
    (∀ obj k, KeyFunc obj = .ok k → onAdd obj = [.queueAdd k]) ∧
    onAdd (.node newNode) = [.queueAdd key] ∧
    onUpdate (.node oldNode) (.node newNode)
      = some (if oldNode.BootID ≠ newNode.BootID then [.queueAdd key] else []) ∧
    (oldNode.BootID ≠ newNode.BootID →
      onUpdate (.node oldNode) (.node newNode) = some [.queueAdd key]) ∧
    (oldNode.BootID = newNode.BootID → onUpdate (.node oldNode) (.node newNode) = some []) := by
  have hup : onUpdate (.node oldNode) (.node newNode)
      = some (if oldNode.BootID ≠ newNode.BootID then [.queueAdd key] else []) := by
    rw [onUpdate, update_nodes, enqueue_of_key _ key hold]
  refine ⟨fun obj k hk => enqueue_of_key obj k hk, enqueue_of_key _ key hnew, hup, ?_, ?_⟩
  · intro hne
    rw [hup, if_pos hne]
  · intro heq
    rw [hup, if_neg (not_not.mpr heq)]

/-- C11, evaluated: the node `n1` restarts (new `BootID`) and is enqueued; it
changes its annotations only and is not. -/
theorem event_policy_witness :
    onAdd (.node (sampleNode none)) = [.queueAdd "n1"] ∧
    onUpdate (.node (sampleNode none)) (.node { sampleNode none with BootID := "b2" })
      = some [.queueAdd "n1"] ∧
    onUpdate (.node (sampleNode none)) (.node (sampleNode (some [("zone", "z")]))) = some [] :=
  ⟨(event_policy (sampleNode none) (sampleNode none) "n1" (by decide) (by decide)).2.1,
    (event_policy (sampleNode none) { sampleNode none with BootID := "b2" } "n1"
      (by decide) (by decide)).2.2.2.1 (by decide),
    (event_policy (sampleNode none) (sampleNode (some [("zone", "z")])) "n1"
      (by decide) (by decide)).2.2.2.2 (by decide)⟩

/-- C19: `update` decides by the same test whichever of two nodes is passed
first, and when the two nodes have the same key the calls it makes are the same
in both orders: what the informer's order (old, new) enqueues is what the
handler's order (obj, oldObj) would enqueue. -/
theorem update_order_irrelevant (a b : Node) :
    update (.node a) (.node b) = some (if a.BootID ≠ b.BootID then enqueue (.node a) else []) ∧
    update (.node b) (.node a) = some (if a.BootID ≠ b.BootID then enqueue (.node b) else []) ∧
    (KeyFunc (.node a) = KeyFunc (.node b) →
      enqueue (.node a) = enqueue (.node b) ∧
      update (.node a) (.node b) = update (.node b) (.node a) ∧
      onUpdate (.node a) (.node b) = update (.node b) (.node a)) := by
  have hba : update (.node b) (.node a)
      = some (if a.BootID ≠ b.BootID then enqueue (.node b) else []) := by
    rw [update_nodes]
    by_cases h : a.BootID = b.BootID
    · simp [h]
    · have h' : b.BootID ≠ a.BootID := fun e => h e.symm
      simp [h, h']
  refine ⟨update_nodes a b, hba, fun hkey => ?_⟩
  have henq : enqueue (.node a) = enqueue (.node b) := by
    simp only [enqueue, hkey]
  refine ⟨henq, ?_, ?_⟩
  · rw [update_nodes, hba, henq]
  · rw [onUpdate, update_nodes, hba, henq]

/-- C19, evaluated: the old and the new state of the node `n1` across a
restart, in both orders. -/
theorem update_order_irrelevant_witness :
    update (.node (sampleNode none)) (.node { sampleNode none with BootID := "b2" })
      = some [.queueAdd "n1"] ∧
    update (.node { sampleNode none with BootID := "b2" }) (.node (sampleNode none))
      = some [.queueAdd "n1"] := by
  have h := (update_order_irrelevant (sampleNode none)
    { sampleNode none with BootID := "b2" }).2.2 (by decide)
  exact ⟨by decide, by rw [← h.2.1]; decide⟩

/-! ## The reconciler: convergence and the state after a pass -/

theorem getExternalID_congr (na nb : nodeAnnotater) (nodeUrl : String)
    (h : nb.getInstance = na.getInstance) : getExternalID nb nodeUrl = getExternalID na nodeUrl := by
  unfold getExternalID
  rw [h]

theorem upToDate_of_stored (node : Node) (eid : String)
    (h : node.annotation? InstanceIDAnnotationKey = some eid) :
    node.lenAnnotations ≠ 0 ∧ eid = node.annotation InstanceIDAnnotationKey := by
  cases hm : node.Annotations with
  | none => simp [Node.annotation?, hm] at h
  | some m =>
    simp only [Node.annotation?, hm] at h
    constructor
    · cases m with
      | nil => simp [List.lookup] at h
      | cons e m => simp [Node.lenAnnotations, hm]
    · simp [Node.annotation, hm, GoMap.index, h]

theorem annotated_holds_eid (node : Node) (eid : String) :
    (annotated node eid).annotation? InstanceIDAnnotationKey = some eid := by
  simp [Node.annotation?, annotated, lookup_assign_self]

theorem sync_after_write (na : nodeAnnotater) (key : String) (node : Node) (eid : String)
    (f : String → Option Node)
    (hres : (getExternalID na node.ProviderID).1 = .ok eid)
    (hf : f key = some (annotated node eid)) :
    sync { na with ns := f } key = ({ na with ns := f }, (getExternalID na node.ProviderID).2) := by
  have hg : getExternalID { na with ns := f } (annotated node eid).ProviderID
      = getExternalID na node.ProviderID := getExternalID_congr na _ _ rfl
  have hup := upToDate_of_stored (annotated node eid) eid (annotated_holds_eid node eid)
  have h := sync_upToDate { na with ns := f } key (annotated node eid) eid hf
    (by rw [hg]; exact hres) hup.1 hup.2
  rw [h, hg]


theorem filter_isUpdate_lookups (na : nodeAnnotater) (nodeUrl : String) :
    (getExternalID na nodeUrl).2.filter Call.isUpdate = [] := by
  rw [List.filter_eq_nil_iff]
  intro c hc
  simp [(isLookup_not_update (getExternalID_calls_lookup na nodeUrl c hc)).1]

theorem filter_isEnqueue_lookups (na : nodeAnnotater) (nodeUrl : String) :
    (getExternalID na nodeUrl).2.filter Call.isEnqueue = [] := by
  rw [List.filter_eq_nil_iff]
  intro c hc
  simp [(isLookup_not_update (getExternalID_calls_lookup na nodeUrl c hc)).2]

/-- C12: when the node of a key has a missing or stale identity annotation,
the resolver returns `eid` and the update is accepted, one `sync` pass makes
exactly one update, whose payload holds `eid` under the identity key, enqueues
nothing, and leaves a state in which the node read for the key holds `eid`;
every further pass on the resulting state makes no update, so any number of
passes writes the value exactly once. -/
theorem sync_converges (na : nodeAnnotater) (key : String) (node : Node) (eid : String)
    (hnode : na.ns key = some node)
    (hres : (getExternalID na node.ProviderID).1 = .ok eid)
    (hstale : node.annotation? InstanceIDAnnotationKey ≠ some eid)
    (hupd : ∃ r, na.c (annotated node eid) = .ok r) :
    (sync na key).2.filter Call.isUpdate = [.nodesUpdate (annotated node eid)] ∧
    (annotated node eid).annotation? InstanceIDAnnotationKey = some eid ∧
    (sync na key).2.filter Call.isEnqueue = [] ∧
    ((sync na key).1.ns key).bind (fun n => n.annotation? InstanceIDAnnotationKey) = some eid ∧
    (∀ n, ∀ c ∈ (syncRepeat (sync na key).1 key n).2, c.isUpdate = false) ∧
    ∀ n, (syncRepeat na key (n + 1)).2.filter Call.isUpdate
      = [.nodesUpdate (annotated node eid)] := by
  obtain ⟨m, hfmt⟩ := getExternalID_ok_format na node.ProviderID eid hres
  obtain ⟨r, hr⟩ := hupd
  have hs := sync_write na key node eid hnode hres (stale_not_upToDate node eid m hfmt hstale)
  simp only [hr, List.append_nil] at hs
  have hnext := sync_after_write na key node eid
    (Function.update na.ns key (some (annotated node eid))) hres (Function.update_same _ _ _)
  have hlater : ∀ n, ∀ c ∈ (syncRepeat (sync na key).1 key n).2, c.isUpdate = false := by
    intro n c hc
    rw [hs] at hc
    have hin := (syncRepeat_fixed _ key _ hnext n).2 c hc
    exact (isLookup_not_update (getExternalID_calls_lookup na node.ProviderID c hin)).1
  have hfirst : (sync na key).2.filter Call.isUpdate = [.nodesUpdate (annotated node eid)] := by
    rw [hs]
    simp [List.filter_append, filter_isUpdate_lookups, Call.isUpdate, List.filter]
  refine ⟨hfirst, annotated_holds_eid node eid, ?_, ?_, hlater, fun n => ?_⟩
  · rw [hs]
    simp [List.filter_append, filter_isEnqueue_lookups, Call.isEnqueue, List.filter]
  · rw [hs]
    simp [annotated_holds_eid]
  · have hnil : (syncRepeat (sync na key).1 key n).2.filter Call.isUpdate = [] := by
      rw [List.filter_eq_nil_iff]
      intro c hc
      simp [hlater n c hc]
    simp only [syncRepeat, List.filter_append, hfirst, hnil, List.append_nil]

/-- C12, evaluated: the node `n1` has no annotation; four passes make one
update, with the identifier 42. -/
theorem sync_converges_witness :
    (syncRepeat (sampleAnnotater (sampleNode none) (.ok ⟨42⟩) (.ok ())) "n1" 4).2.filter
        Call.isUpdate
      = [.nodesUpdate (sampleNode (some [(InstanceIDAnnotationKey, "42")]))] :=
  (sync_converges (sampleAnnotater (sampleNode none) (.ok ⟨42⟩) (.ok ())) "n1"
    (sampleNode none) "42" (by decide) (by decide) (by decide)
    ⟨sampleNode (some [(InstanceIDAnnotationKey, "42")]), by decide⟩).2.2.2.2.2 3


/-- C16, the code at a failing input: the node `n1` has no annotation and the
update is rejected.  The pass re-enqueues the key, but the node object held by
the cache has been assigned through (lines 146-150) and now carries the
identifier, so the retry finds it up to date and makes no update; for every
node with a missing or stale annotation the cached object carries the
identifier after the pass, whether the update succeeded or not. -/
theorem sync_failed_write_changes_cache :
    (sync (sampleAnnotater (sampleNode none) (.ok ⟨42⟩) (.error "conflict")) "n1").2
      = [.getInstance "p" "z" "v",
          .nodesUpdate (sampleNode (some [(InstanceIDAnnotationKey, "42")])),
          .queueAdd "n1"] ∧
    (sampleAnnotater (sampleNode none) (.ok ⟨42⟩) (.error "conflict")).ns "n1"
      = some (sampleNode none) ∧
    (sync (sampleAnnotater (sampleNode none) (.ok ⟨42⟩) (.error "conflict")) "n1").1.ns "n1"
      = some (sampleNode (some [(InstanceIDAnnotationKey, "42")])) ∧
    (sync (sync (sampleAnnotater (sampleNode none) (.ok ⟨42⟩) (.error "conflict")) "n1").1
        "n1").2 = [.getInstance "p" "z" "v"] ∧
    ∀ (na : nodeAnnotater) (key : String) (node : Node) (eid : String),
      na.ns key = some node → (getExternalID na node.ProviderID).1 = .ok eid →
      node.annotation? InstanceIDAnnotationKey ≠ some eid →
      (sync na key).1.ns key = some (annotated node eid) ∧
      ∀ c ∈ (sync (sync na key).1 key).2, c.isUpdate = false := by
  refine ⟨by decide, by decide, by decide, by decide, fun na key node eid hnode hres hstale => ?_⟩
  obtain ⟨m, hfmt⟩ := getExternalID_ok_format na node.ProviderID eid hres
  have hs := sync_write na key node eid hnode hres (stale_not_upToDate node eid m hfmt hstale)
  have hnext := sync_after_write na key node eid
    (Function.update na.ns key (some (annotated node eid))) hres (Function.update_same _ _ _)
  rw [hs]
  refine ⟨Function.update_same _ _ _, fun c hc => ?_⟩
  rw [hnext] at hc
  exact (isLookup_not_update (getExternalID_calls_lookup na node.ProviderID c hc)).1


theorem filter_isLookup_lookups (na : nodeAnnotater) (nodeUrl : String) :
    (getExternalID na nodeUrl).2.filter Call.isLookup = (getExternalID na nodeUrl).2 := by
  rw [List.filter_eq_self]
  exact getExternalID_calls_lookup na nodeUrl

/-- C17: a `sync` pass makes at most one inventory lookup and at most one
update, and it ends in exactly one of two ways: either it enqueues the key,
once, or it enqueues nothing, and it enqueues nothing exactly when the node
exists, the resolver returns an identifier for its provider URI, and that
identifier is the identity annotation the node already held or the one in the
payload of an update the cluster client accepted. -/
theorem sync_postcondition (na : nodeAnnotater) (key : String) :
    ((sync na key).2.filter Call.isLookup).length ≤ 1 ∧
    ((sync na key).2.filter Call.isUpdate).length ≤ 1 ∧
    ((sync na key).2.filter Call.isEnqueue = [] ∨
      (sync na key).2.filter Call.isEnqueue = [.queueAdd key]) ∧
    ((sync na key).2.filter Call.isEnqueue = [] ↔
      ∃ node eid, na.ns key = some node ∧ (getExternalID na node.ProviderID).1 = .ok eid ∧
        (node.annotation? InstanceIDAnnotationKey = some eid ∨
          ∃ payload, Call.nodesUpdate payload ∈ (sync na key).2 ∧
            (∃ r, na.c payload = .ok r) ∧
            payload.annotation? InstanceIDAnnotationKey = some eid)) := by
  cases hn : na.ns key with
  | none =>
    rw [sync_notFound na key hn]
    simp [Call.isLookup, Call.isUpdate, Call.isEnqueue, List.filter]
  | some node =>
    have hlen := getExternalID_calls_length na node.ProviderID
    cases hr : (getExternalID na node.ProviderID).1 with
    | error e =>
      rw [sync_resolveError na key node e hn hr]
      simp only [List.filter_append, filter_isLookup_lookups, filter_isUpdate_lookups,
        filter_isEnqueue_lookups]
      simp [Call.isLookup, Call.isUpdate, Call.isEnqueue, List.filter, hlen, hr]
    | ok eid =>
      obtain ⟨m, hfmt⟩ := getExternalID_ok_format na node.ProviderID eid hr
      by_cases hup : node.lenAnnotations ≠ 0 ∧ eid = node.annotation InstanceIDAnnotationKey
      · have hann : node.annotation? InstanceIDAnnotationKey = some eid := by
          by_contra hne
          exact stale_not_upToDate node eid m hfmt hne hup
        rw [sync_upToDate na key node eid hn hr hup.1 hup.2]
        simp only [filter_isLookup_lookups, filter_isUpdate_lookups, filter_isEnqueue_lookups]
        refine ⟨hlen, by simp, Or.inl trivial, ?_⟩
        simp only [true_iff]
        exact ⟨node, eid, rfl, hr, Or.inl hann⟩
      · have hstale : node.annotation? InstanceIDAnnotationKey ≠ some eid := fun h =>
          hup (upToDate_of_stored node eid h)
        rw [sync_write na key node eid hn hr hup]
        cases hc : na.c (annotated node eid) with
        | ok r =>
          simp only [List.filter_append, filter_isLookup_lookups, filter_isUpdate_lookups,
            filter_isEnqueue_lookups]
          refine ⟨by simpa [Call.isLookup, List.filter] using hlen,
            by simp [Call.isUpdate, List.filter],
            Or.inl (by simp [Call.isEnqueue, List.filter]), ?_⟩
          simp only [Call.isEnqueue, List.filter, List.append_nil, true_iff]
          refine ⟨node, eid, rfl, hr, Or.inr ⟨annotated node eid, ?_, ⟨r, hc⟩,
            annotated_holds_eid node eid⟩⟩
          simp
        | error err =>
          simp only [List.filter_append, filter_isLookup_lookups, filter_isUpdate_lookups,
            filter_isEnqueue_lookups]
          refine ⟨by simpa [Call.isLookup, List.filter] using hlen,
            by simp [Call.isUpdate, List.filter],
            Or.inr (by simp [Call.isEnqueue, List.filter]), ?_⟩
          simp only [Call.isEnqueue, List.filter, List.nil_append, List.cons_ne_nil, false_iff]
          rintro ⟨node2, eid2, hn2, hr2, hcase⟩
          cases hn2
          rw [hr] at hr2
          cases hr2
          rcases hcase with h | ⟨payload, hmem, ⟨r, hok⟩, _⟩
          · exact hstale h
          · simp only [List.mem_append, List.mem_singleton, Call.nodesUpdate.injEq,
              reduceCtorEq, or_false] at hmem
            rcases hmem with hmem | hmem
            · have := getExternalID_calls_lookup na node.ProviderID _ hmem
              simp [Call.isLookup] at this
            · rw [hmem, hc] at hok
              cases hok


/-! ## The worker and the resolver: order of the calls -/

theorem sync_count_done (na : nodeAnnotater) (key k : String) :
    (sync na key).2.count (.queueDone k) = 0 := by
  rw [List.count_eq_zero]
  intro hmem
  rcases sync_calls_cases na key _ hmem with h | h | h
  · simp [Call.isLookup] at h
  · simp [Call.isUpdate] at h
  · simp at h

/-- C14: when `queue.Get()` reports shutdown, `processNextWorkItem` returns
false and calls nothing else: no `sync`, no `Forget`, no `Done`, the annotater
is unchanged.  Otherwise it returns true, the state and the calls in between
are those of one `sync` pass on the dequeued key, `Done(key)` is the last call,
after the calls of `sync` and after `Forget(key)`, and `Done` is called once
for that key and for no other key. -/
theorem processNextWorkItem_protocol (na : nodeAnnotater) (key : String) :
    processNextWorkItem na key true = (false, na, [.queueGet]) ∧
    (processNextWorkItem na key false).1 = true ∧
    (processNextWorkItem na key false).2.1 = (sync na key).1 ∧
    (processNextWorkItem na key false).2.2
      = [.queueGet] ++ (sync na key).2 ++ [.queueForget key, .queueDone key] ∧
    (processNextWorkItem na key false).2.2.getLast? = some (.queueDone key) ∧
    ∀ k, (processNextWorkItem na key false).2.2.count (.queueDone k) = if k = key then 1 else 0 := by
  refine ⟨by simp [processNextWorkItem], by simp [processNextWorkItem],
    by simp [processNextWorkItem], by simp [processNextWorkItem], ?_, fun k => ?_⟩
  · have h : (processNextWorkItem na key false).2.2
        = ([.queueGet] ++ (sync na key).2 ++ [.queueForget key]) ++ [.queueDone key] := by
      simp [processNextWorkItem]
    rw [h, List.getLast?_concat]
  · simp only [processNextWorkItem, Bool.false_eq_true, if_false, List.count_append,
      sync_count_done]
    by_cases hk : k = key
    · subst hk
      simp [List.count_cons]
    · have hk' : ¬ key = k := fun h => hk h.symm
      simp [List.count_cons, hk, hk']

/-- C18: `getExternalID` makes at most one call, and only inventory lookups.
When all parsing checks pass (the URI parses, the scheme is `gce`, the path has
three segments, the first is empty) it makes exactly one lookup, with the host
and the two other segments; when one of the checks fails it makes no call. -/
theorem getExternalID_lookup_guarded (na : nodeAnnotater) (nodeUrl : String) :
    (getExternalID na nodeUrl).2.length ≤ 1 ∧
    (∀ c ∈ (getExternalID na nodeUrl).2, c.isLookup = true) ∧
    (∀ u zone vm, urlParse nodeUrl = .ok u → u.Scheme = "gce" →
      stringsSplit u.Path '/' = ["", zone, vm] →
      (getExternalID na nodeUrl).2 = [.getInstance u.Host zone vm]) ∧
    ((¬ ∃ u zone vm, urlParse nodeUrl = .ok u ∧ u.Scheme = "gce" ∧
        stringsSplit u.Path '/' = ["", zone, vm]) →
      (getExternalID na nodeUrl).2 = []) := by
  refine ⟨getExternalID_calls_length na nodeUrl, getExternalID_calls_lookup na nodeUrl,
    fun u zone vm hu hs hsp => ?_, fun hno => ?_⟩
  · rw [getExternalID_of_parse na nodeUrl u hu hs]
    simp only [hsp]
    cases na.getInstance u.Host zone vm <;> simp
  · cases hu : urlParse nodeUrl with
    | error err => simp [getExternalID, hu]
    | ok u =>
      by_cases hs : u.Scheme = "gce"
      · rw [getExternalID_of_parse na nodeUrl u hu hs]
        split
        · rename_i part0 zone vm hsp
          by_cases h0 : part0.length = 0
          · exfalso
            apply hno
            have hd : part0.data = [] := List.length_eq_zero.mp h0
            have he : part0 = "" := by
              cases part0
              simp_all
            exact ⟨u, zone, vm, hu, hs, by rw [hsp, he]⟩
          · simp [h0]
        · rfl
      · simp [getExternalID, hu, hs]

/-- C18, evaluated: a lookup for `gce://p/z/v`, none for a URI with the scheme
`aws`, none for a path of two segments. -/
theorem getExternalID_lookup_guarded_witness :
    (getExternalID (sampleAnnotater (sampleNode none) (.ok ⟨42⟩) (.ok ())) "gce://p/z/v").2
      = [.getInstance "p" "z" "v"] ∧
    (getExternalID (sampleAnnotater (sampleNode none) (.ok ⟨42⟩) (.ok ())) "aws://p/z/v").2 = [] ∧
    (getExternalID (sampleAnnotater (sampleNode none) (.ok ⟨42⟩) (.ok ())) "gce://p/z").2 = [] :=
  ⟨(getExternalID_lookup_guarded (sampleAnnotater (sampleNode none) (.ok ⟨42⟩) (.ok ()))
      "gce://p/z/v").2.2.1 { Scheme := "gce", Host := "p", Path := "/z/v" } "z" "v"
      (by decide) (by decide) (by decide),
    by decide, by decide⟩


/-- C13, refuted as stated: the lookup fails with the error `timeout`; the
error of `getExternalID` is the one of line 180, whose text is
`unable to query gcp apis: timeout`, not the text of the lookup error. -/
theorem getExternalID_lookup_error_counterexample :
    (sampleAnnotater (sampleNode none) (.error "timeout") (.ok ())).getInstance "p" "z" "v"
      = .error "timeout" ∧
    (getExternalID (sampleAnnotater (sampleNode none) (.error "timeout") (.ok ()))
      "gce://p/z/v").1 = .error (.unableToQuery "timeout") ∧
    (∀ quote parseText, ResolveError.Error quote parseText (.unableToQuery "timeout")
      = "unable to query gcp apis: timeout") ∧
    ("unable to query gcp apis: timeout" : String) ≠ "timeout" := by
  refine ⟨by decide, by decide, fun _ _ => ?_, by decide⟩
  simp only [ResolveError.Error]
  decide

/-- C13, amended: when the parsing checks pass and the inventory lookup returns
an error, `getExternalID` returns no identifier but the error of line 180,
after that one lookup; the text of this error is the text of the lookup error
behind the prefix `unable to query gcp apis: `, whatever the lookup error is. -/
theorem getExternalID_lookup_error (na : nodeAnnotater) (nodeUrl : String) (u : URL)
    (zone vm err : String) (hu : urlParse nodeUrl = .ok u) (hs : u.Scheme = "gce")
    (hsp : stringsSplit u.Path '/' = ["", zone, vm])
    (hlookup : na.getInstance u.Host zone vm = .error err) :
    getExternalID na nodeUrl
      = (.error (.unableToQuery err), [.getInstance u.Host zone vm]) ∧
    ∀ quote parseText, ResolveError.Error quote parseText (.unableToQuery err)
      = "unable to query gcp apis: " ++ err := by
  refine ⟨?_, fun _ _ => rfl⟩
  rw [getExternalID_of_parse na nodeUrl u hu hs]
  simp [hsp, hlookup]

/-- C13 amended, evaluated on two lookup errors of different kinds. -/
theorem getExternalID_lookup_error_witness :
    getExternalID (sampleAnnotater (sampleNode none) (.error "timeout") (.ok ())) "gce://p/z/v"
      = (.error (.unableToQuery "timeout"), [.getInstance "p" "z" "v"]) ∧
    getExternalID (sampleAnnotater (sampleNode none) (.error "googleapi: Error 404") (.ok ()))
        "gce://p/z/v"
      = (.error (.unableToQuery "googleapi: Error 404"), [.getInstance "p" "z" "v"]) :=
  ⟨(getExternalID_lookup_error (sampleAnnotater (sampleNode none) (.error "timeout") (.ok ()))
      "gce://p/z/v" { Scheme := "gce", Host := "p", Path := "/z/v" } "z" "v" "timeout"
      (by decide) (by decide) (by decide) (by decide)).1,
    (getExternalID_lookup_error
      (sampleAnnotater (sampleNode none) (.error "googleapi: Error 404") (.ok ()))
      "gce://p/z/v" { Scheme := "gce", Host := "p", Path := "/z/v" } "z" "v"
      "googleapi: Error 404" (by decide) (by decide) (by decide) (by decide)).1⟩


/-! ## The work queue: coalescing -/

theorem WorkQueue.inv_empty : WorkQueue.empty.Inv := by
  simp [WorkQueue.Inv, WorkQueue.empty]

theorem WorkQueue.inv_enqueue (q : WorkQueue) (key : String) (h : q.Inv) :
    (q.enqueue key).Inv := by
  obtain ⟨hnd, hpp, hdp⟩ := h
  unfold WorkQueue.enqueue
  split
  · rename_i hproc
    split
    · exact ⟨hnd, hpp, hdp⟩
    · refine ⟨hnd, hpp, fun k hk => ?_⟩
      rcases List.mem_cons.mp hk with hk | hk
      · rw [hk]
        exact hproc
      · exact hdp k hk
  · rename_i hproc
    split
    · exact ⟨hnd, hpp, hdp⟩
    · rename_i hpend
      refine ⟨?_, fun k hk => ?_, hdp⟩
      · exact List.Nodup.append hnd (List.nodup_singleton key)
          (fun a ha hk => hpend (List.mem_singleton.mp hk ▸ ha))
      · rcases List.mem_append.mp hk with hk | hk
        · exact hpp k hk
        · rw [List.mem_singleton.mp hk]
          exact hproc

theorem WorkQueue.inv_next (q q' : WorkQueue) (key : String) (h : q.Inv)
    (hn : q.next = some (key, q')) :
    q'.Inv ∧ key ∉ q.processing ∧ key ∈ q'.processing ∧ key ∉ q'.pending := by
  obtain ⟨hnd, hpp, hdp⟩ := h
  unfold WorkQueue.next at hn
  cases hp : q.pending with
  | nil => simp [hp] at hn
  | cons k rest =>
    simp only [hp, Option.some.injEq, Prod.mk.injEq] at hn
    obtain ⟨hk, hq⟩ := hn
    subst hk
    subst hq
    rw [hp] at hnd hpp
    have hnot : k ∉ rest := (List.nodup_cons.mp hnd).1
    refine ⟨⟨(List.nodup_cons.mp hnd).2, fun j hj => ?_, fun j hj => ?_⟩,
      hpp k (by simp), by simp, hnot⟩
    · intro hmem
      rcases List.mem_cons.mp hmem with hjk | hjp
      · exact hnot (hjk ▸ hj)
      · exact hpp j (by simp [hj]) hjp
    · exact List.mem_cons_of_mem _ (hdp j hj)

theorem WorkQueue.inv_done (q : WorkQueue) (key : String) (h : q.Inv) : (q.done key).Inv := by
  obtain ⟨hnd, hpp, hdp⟩ := h
  unfold WorkQueue.done
  split
  · rename_i hdirty
    have hproc : key ∈ q.processing := hdp key hdirty
    have hpend : key ∉ q.pending := fun hk => hpp key hk hproc
    refine ⟨?_, fun k hk => ?_, fun k hk => ?_⟩
    · exact List.Nodup.append hnd (List.nodup_singleton key)
        (fun a ha hk => hpend (List.mem_singleton.mp hk ▸ ha))
    · rcases List.mem_append.mp hk with hk | hk
      · intro hmem
        exact hpp k hk (List.mem_filter.mp hmem).1
      · rw [List.mem_singleton.mp hk]
        simp [List.mem_filter]
    · simp only [List.mem_filter] at hk ⊢
      exact ⟨hdp k hk.1, hk.2⟩
  · rename_i hdirty
    refine ⟨hnd, fun k hk hmem => hpp k hk (List.mem_filter.mp hmem).1, fun k hk => ?_⟩
    simp only [List.mem_filter]
    refine ⟨hdp k hk, ?_⟩
    have hne : k ≠ key := fun e => hdirty (e ▸ hk)
    simpa using hne

theorem WorkQueue.inv_step (q : WorkQueue) (e : QueueEvent) (h : q.Inv) : (q.step e).Inv := by
  cases e with
  | enqueue key => exact WorkQueue.inv_enqueue q key h
  | next =>
    unfold WorkQueue.step
    cases hn : q.next with
    | none => exact h
    | some r =>
      obtain ⟨key, q'⟩ := r
      exact (WorkQueue.inv_next q q' key h hn).1
  | done key => exact WorkQueue.inv_done q key h

theorem WorkQueue.inv_run (q : WorkQueue) (events : List QueueEvent) (h : q.Inv) :
    (q.run events).Inv := by
  induction events generalizing q with
  | nil => exact h
  | cons e events ih => exact ih (q.step e) (WorkQueue.inv_step q e h)


theorem WorkQueue.enqueue_inflight (q : WorkQueue) (key : String) (h : key ∈ q.processing) :
    (q.enqueue key).pending = q.pending ∧ (q.enqueue key).processing = q.processing ∧
    key ∈ (q.enqueue key).dirty := by
  unfold WorkQueue.enqueue
  by_cases hd : key ∈ q.dirty <;> simp [h, hd]

theorem WorkQueue.enqueueTimes_inflight (q : WorkQueue) (key : String) (count : Nat)
    (h : key ∈ q.processing) :
    (q.enqueueTimes key (count + 1)).pending = q.pending ∧
    (q.enqueueTimes key (count + 1)).processing = q.processing ∧
    key ∈ (q.enqueueTimes key (count + 1)).dirty := by
  induction count with
  | zero => exact WorkQueue.enqueue_inflight q key h
  | succ count ih =>
    obtain ⟨h1, h2, _⟩ := ih
    have hstep := WorkQueue.enqueue_inflight (q.enqueueTimes key (count + 1)) key (h2 ▸ h)
    exact ⟨hstep.1.trans h1, hstep.2.1.trans h2, hstep.2.2⟩

theorem WorkQueue.inv_enqueueTimes (q : WorkQueue) (key : String) (count : Nat) (h : q.Inv) :
    (q.enqueueTimes key count).Inv := by
  induction count with
  | zero => exact h
  | succ count ih => exact WorkQueue.inv_enqueue _ key ih

theorem WorkQueue.done_dirty (q : WorkQueue) (key : String) (h : key ∈ q.dirty) :
    (q.done key).pending = q.pending ++ [key] ∧ key ∉ (q.done key).processing ∧
    key ∉ (q.done key).dirty := by
  unfold WorkQueue.done
  simp [h, List.mem_filter]

theorem WorkQueue.drain_all (fuel : Nat) (q : WorkQueue) (h : q.Inv)
    (hfuel : q.pending.length ≤ fuel) :
    (WorkQueue.drain fuel q).1 = q.pending ∧ (WorkQueue.drain fuel q).2.pending = [] := by
  induction fuel generalizing q with
  | zero =>
    have hnil : q.pending = [] := List.length_eq_zero.mp (Nat.le_zero.mp hfuel)
    simp [WorkQueue.drain, hnil]
  | succ fuel ih =>
    cases hp : q.pending with
    | nil => simp [WorkQueue.drain, WorkQueue.next, hp]
    | cons k rest =>
      have hn : q.next = some (k, { q with pending := rest, processing := k :: q.processing }) := by
        simp [WorkQueue.next, hp]
      obtain ⟨hinv, hnot, _, _⟩ := WorkQueue.inv_next q _ k h hn
      have hdirty : k ∉ q.dirty := fun hd => hnot (h.2.2 k hd)
      have hdone : ({ q with pending := rest, processing := k :: q.processing } : WorkQueue).done k
          = { pending := rest, processing := (k :: q.processing).filter (· ≠ k),
              dirty := q.dirty } := by
        simp [WorkQueue.done, hdirty]
      have hrec := ih _ (WorkQueue.inv_done _ k hinv) (by
        rw [hdone]
        rw [hp] at hfuel
        simpa using hfuel)
      rw [hdone] at hrec
      simp only [WorkQueue.drain, hn, hdone]
      exact ⟨by rw [hrec.1], hrec.2⟩

/-- C15: in a queue that satisfies the queue invariant (every queue reached
from the empty one does), take a key that is in flight.  One, two or more
enqueues of that key followed by `done` leave the key pending exactly once and
no longer in flight or dirty, and a worker that then takes keys until none is
pending is handed the key exactly once.  While the key is in flight `next`
does not hand it out, and every step other than `done` for that key keeps it in
flight. -/
theorem queue_coalesces (q : WorkQueue) (key : String) (count : Nat) (hq : q.Inv)
    (hflight : key ∈ q.processing) :
    ((q.enqueueTimes key (count + 1)).done key).pending = q.pending ++ [key] ∧
    ((q.enqueueTimes key (count + 1)).done key).pending.count key = 1 ∧
    key ∉ ((q.enqueueTimes key (count + 1)).done key).processing ∧
    key ∉ ((q.enqueueTimes key (count + 1)).done key).dirty ∧
    (WorkQueue.drain (q.pending.length + 1) ((q.enqueueTimes key (count + 1)).done key)).1.count key
      = 1 ∧
    (WorkQueue.drain (q.pending.length + 1)
      ((q.enqueueTimes key (count + 1)).done key)).2.pending = [] ∧
    (∀ q', q.next ≠ some (key, q')) ∧
    (∀ e, e ≠ .done key → key ∈ (q.step e).processing ∧ (q.step e).Inv) ∧
    ∀ events, (WorkQueue.empty.run events).Inv := by
  obtain ⟨h1, h2, h3⟩ := WorkQueue.enqueueTimes_inflight q key count hflight
  obtain ⟨hd1, hd2, hd3⟩ := WorkQueue.done_dirty _ key h3
  have hpend : ((q.enqueueTimes key (count + 1)).done key).pending = q.pending ++ [key] := by
    rw [hd1, h1]
  have hnot : key ∉ q.pending := fun hk => hq.2.1 key hk hflight
  have hcount : (q.pending ++ [key]).count key = 1 := by
    rw [List.count_append, List.count_eq_zero.mpr hnot]
    simp
  have hinv : ((q.enqueueTimes key (count + 1)).done key).Inv :=
    WorkQueue.inv_done _ key (WorkQueue.inv_enqueueTimes q key _ hq)
  have hdrain := WorkQueue.drain_all (q.pending.length + 1) _ hinv (by rw [hpend]; simp)
  refine ⟨hpend, by rw [hpend, hcount], hd2, hd3, by rw [hdrain.1, hpend, hcount], hdrain.2,
    fun q' hn => (WorkQueue.inv_next q q' key hq hn).2.1 hflight, fun e he => ?_,
    fun events => WorkQueue.inv_run _ events WorkQueue.inv_empty⟩
  refine ⟨?_, WorkQueue.inv_step q e hq⟩
  cases e with
  | enqueue j =>
    simp only [WorkQueue.step, WorkQueue.enqueue]
    split
    · split <;> exact hflight
    · split <;> exact hflight
  | next =>
    simp only [WorkQueue.step]
    cases hn : q.next with
    | none => exact hflight
    | some r =>
      obtain ⟨j, q'⟩ := r
      simp only [WorkQueue.next] at hn
      cases hp : q.pending with
      | nil => simp [hp] at hn
      | cons k rest =>
        simp only [hp, Option.some.injEq, Prod.mk.injEq] at hn
        rw [← hn.2]
        exact List.mem_cons_of_mem _ hflight
  | done j =>
    have hne : key ≠ j := fun e => he (by rw [e])
    simp only [WorkQueue.step, WorkQueue.done]
    split <;> simp [List.mem_filter, hflight, hne]

/-- C15, evaluated: the key `n1` is enqueued and handed to a worker; two more
enqueues arrive before the worker calls `done`.  The key is then pending once,
and the next worker loop is handed it once. -/
theorem queue_coalesces_witness :
    (((WorkQueue.empty.run [.enqueue "n1", .next]).enqueueTimes "n1" 2).done "n1")
      = { pending := ["n1"], processing := [], dirty := [] } ∧
    (WorkQueue.drain 1
      (((WorkQueue.empty.run [.enqueue "n1", .next]).enqueueTimes "n1" 2).done "n1")).1.count "n1"
      = 1 :=
  ⟨by decide,
    (queue_coalesces (WorkQueue.empty.run [.enqueue "n1", .next]) "n1" 1 (by decide)
      (by decide)).2.2.2.2.1⟩


end NodeAnnotater
